import Mathlib

/-
Verification of the soda-gql SWC transformer (Rust crates
packages/swc and packages/swc-transformer) against its specification.

The development shallowly embeds the transformer pipeline:
the metadata collector (metadata.rs), the call analyzer (analysis.rs),
the replacement synthesizer (runtime.rs), the AST rewriter and
orchestration (transformer.rs) and the import manager (imports.rs).
JavaScript syntax is modelled by a small mutually inductive AST that
mirrors the SWC node shapes those passes inspect; external collaborators
(the SWC parser, the code emitter, serde_json) are threaded through as
function parameters, since their code is not part of the repository.
-/

/-! ## String helpers

Rust string primitives used by the source, embedded over the
character-list model of Lean strings so that everything computes.
-/

/-- Decimal digit character, as produced by Rust's integer Display. -/
def digitChar10 : Nat → Char
  | 0 => '0' | 1 => '1' | 2 => '2' | 3 => '3' | 4 => '4'
  | 5 => '5' | 6 => '6' | 7 => '7' | 8 => '8' | _ => '9'

/-- Numeric value of a decimal digit character (left inverse of digitChar10). -/
def digitVal10 (c : Char) : Nat :=
  if c = '0' then 0 else if c = '1' then 1 else if c = '2' then 2
  else if c = '3' then 3 else if c = '4' then 4 else if c = '5' then 5
  else if c = '6' then 6 else if c = '7' then 7 else if c = '8' then 8 else 9

/-- Fueled digit expansion of a natural number, most significant digit first. -/
def ntdAux : Nat → Nat → List Char
  | 0, _ => []
  | fuel+1, n => if n < 10 then [digitChar10 n] else ntdAux fuel (n / 10) ++ [digitChar10 (n % 10)]

/-- Decimal rendering of a natural number, as Rust's format! produces it. -/
def natToDecimal (n : Nat) : String := ⟨ntdAux (n+1) n⟩

/-- Decimal parsing fold, used only to prove natToDecimal injective. -/
def decOfDigits (l : List Char) : Nat := l.foldl (fun acc c => acc * 10 + digitVal10 c) 0

/-- Rust str::starts_with, over character lists. -/
def strStartsWith (s pre : String) : Bool := pre.data.isPrefixOf s.data

/-- Rust str::contains for a single character. -/
def strContainsChar (s : String) (c : Char) : Bool := s.data.any (· == c)

/-- Rust str::replace with a single-character pattern, here backslash to slash:
this is the path normalization both the builder and the swc crate use. -/
def normalizePath (p : String) : String :=
  ⟨p.data.map (fun c => if c = '\\' then '/' else c)⟩

/-- Vec::insert at an index (Rust panics when i > len; call sites keep i ≤ len). -/
def listInsertAt (l : List α) (i : Nat) (x : α) : List α := l.take i ++ [x] ++ l.drop i

/-- Vec::splice inserting a block of items at an index. -/
def listSpliceAt (l : List α) (i : Nat) (xs : List α) : List α := l.take i ++ xs ++ l.drop i

/-! ## Association lists

HashMap behaviour of the source (only get, insert and the entry API are
ever used, never iteration), embedded as association lists.
-/

/-- HashMap::get over an association list. -/
def alistGet [BEq κ] (m : List (κ × α)) (k : κ) : Option α :=
  match m with
  | [] => none
  | (k', v) :: tl => if k' == k then some v else alistGet tl k

/-- HashMap::insert over an association list (overwrites an existing key). -/
def alistInsert [BEq κ] (m : List (κ × α)) (k : κ) (v : α) : List (κ × α) :=
  match m with
  | [] => [(k, v)]
  | (k', v') :: tl => if k' == k then (k, v) :: tl else (k', v') :: alistInsert tl k v

/-! ## The JavaScript AST fragment

Mutually inductive model of the SWC nodes inspected by the pipeline:
identifiers, member chains, calls, arrow functions, function
expressions, object literals, variable declarations, function
declarations, expression and return statements. Node kinds the passes
never look inside are collapsed into childless other constructors, so
the embedding covers the sublanguage the claims quantify over.
Call spans are natural numbers standing for SWC byte spans.
-/

mutual
inductive MProp where
  | ident (sym : String)
  | computed (e : JExpr)
  | otherProp
inductive PName where
  | ident (sym : String)
  | str (value : String)
  | computed (e : JExpr)
  | otherName
inductive JExpr where
  | ident (sym : String)
  | strLit (value : String)
  | member (obj : JExpr) (prop : MProp)
  | call (span : Nat) (callee : JExpr) (args : JArgs)
  | arrow (span : Nat) (body : JArrowBody)
  | fnExpr (name : Option String) (body : JStmts)
  | objectLit (props : JProps)
  | otherExpr
inductive JArgs where
  | nil
  | cons (spread : Bool) (e : JExpr) (tl : JArgs)
inductive JArrowBody where
  | expr (e : JExpr)
  | block (stmts : JStmts)
inductive JProp where
  | keyValue (key : PName) (value : JExpr)
  | otherProp
inductive JProps where
  | nil
  | cons (p : JProp) (tl : JProps)
inductive JStmt where
  | varDecl (decls : JDeclarators)
  | fnDecl (name : String) (body : JStmts)
  | exprStmt (e : JExpr)
  | retStmt (arg : JExpr)
  | retNone
  | otherStmt
inductive JStmts where
  | nil
  | cons (s : JStmt) (tl : JStmts)
inductive JDeclarators where
  | nil
  | cons (d : JDeclarator) (tl : JDeclarators)
inductive JDeclarator where
  | identInit (name : String) (init : JExpr)
  | identNoInit (name : String)
  | otherInit (init : JExpr)
  | otherNoInit
end

/-- ESM import specifier: the import manager only distinguishes named
specifiers with their local binding name. -/
inductive ImportSpecifier where
  | named (localSym : String)
  | other

/-- Top-level module item: an ESM import declaration, a statement, or
another module declaration (exports and the like). -/
inductive ModuleItem where
  | importDecl (specs : List ImportSpecifier) (src : String)
  | stmt (s : JStmt)
  | otherModuleDecl

/-- Parsed module: its body, as in swc Module. -/
structure JModule where
  body : List ModuleItem

/-! ## Length and indexing of argument lists -/

/-- Vec::len for call arguments. -/
def argsLen : JArgs → Nat
  | .nil => 0
  | .cons _ _ tl => argsLen tl + 1

/-- Vec::get for call arguments; the pair is (spread flag, expression). -/
def argsGet : JArgs → Nat → Option (Bool × JExpr)
  | .nil, _ => none
  | .cons sp e _, 0 => some (sp, e)
  | .cons _ _ tl, n+1 => argsGet tl n

/-- Vec::first for call arguments. -/
def argsFirst (a : JArgs) : Option (Bool × JExpr) := argsGet a 0

/-! ## Diagnostics (swc/src/types/error.rs) -/

/-- Stage where an error occurred (ErrorStage in error.rs). -/
inductive ErrorStage where
  | analysis
  | transform
deriving DecidableEq, Repr

/-- Structured plugin error record (PluginError in error.rs). -/
structure PluginError where
  error_type : String
  code : String
  message : String
  stage : ErrorStage
  filename : Option String
  canonical_id : Option String
  artifact_type : Option String
  builder_type : Option String
  arg_name : Option String
deriving DecidableEq, Repr

/-- PluginError::metadata_not_found. -/
def PluginError.metadata_not_found (filename : String) : PluginError :=
  { error_type := "PluginError"
    code := "SODA_GQL_METADATA_NOT_FOUND"
    message := "No metadata found for gql call in '" ++ filename ++ "'"
    stage := .analysis
    filename := some filename
    canonical_id := none
    artifact_type := none
    builder_type := none
    arg_name := none }

/-- PluginError::artifact_not_found. -/
def PluginError.artifact_not_found (filename canonicalId : String) : PluginError :=
  { error_type := "PluginError"
    code := "SODA_GQL_ANALYSIS_ARTIFACT_NOT_FOUND"
    message := "No artifact found for canonical ID '" ++ canonicalId ++ "' in '" ++ filename ++ "'"
    stage := .analysis
    filename := some filename
    canonical_id := some canonicalId
    artifact_type := none
    builder_type := none
    arg_name := none }

/-- PluginError::missing_builder_arg. -/
def PluginError.missing_builder_arg (filename builderType argName : String) : PluginError :=
  { error_type := "PluginError"
    code := "SODA_GQL_TRANSFORM_MISSING_BUILDER_ARG"
    message := "Missing required builder argument '" ++ argName ++ "' for " ++ builderType
      ++ " in '" ++ filename ++ "'"
    stage := .transform
    filename := some filename
    canonical_id := none
    artifact_type := none
    builder_type := some builderType
    arg_name := some argName }

/-! ## Builder artifact (types/artifact.rs, reconstructed from its uses)

The artifact module itself is not among the given sources; its shape is
fixed by the uses in runtime.rs, analysis.rs and transformer.rs: the
transformer's error branch matches exactly the Model and Operation
variants, runtime.rs reads prebuild.typename for models and
prebuild.operation_name plus a serde serialization for operations.
-/

/-- CanonicalId is a plain string key. -/
def CanonicalId := String
deriving DecidableEq

/-- Prebuild payload of a Model artifact (only typename is read). -/
structure ModelPrebuild where
  typename : String
deriving DecidableEq, Repr

/-- Prebuild payload of an Operation artifact (only operation_name is read
directly; the whole payload is serialized by serde_json, which the
embedding abstracts as a function parameter). -/
structure OperationPrebuild where
  operation_name : String
deriving DecidableEq, Repr

/-- Tagged artifact element: the variants the transformer dispatches on. -/
inductive BuilderArtifactElement where
  | model (prebuild : ModelPrebuild)
  | operation (prebuild : OperationPrebuild)
deriving DecidableEq, Repr

/-- Artifact table: mapping from canonical id to artifact element.
The source deserializes it into a HashMap and only ever calls get. -/
def BuilderArtifact := String → Option BuilderArtifactElement

/-! ## Transform configuration and input (swc/src/types/config.rs) -/

/-- TransformConfig from config.rs. -/
structure TransformConfig where
  graphql_system_aliases : List String
  is_cjs : Bool
  graphql_system_path : Option String
  inject_paths : List String
  source_map : Bool

/-- TransformInput for the one-shot entry point: the artifact arrives as a
JSON string and is deserialized inside transform_source. -/
structure TransformInput where
  source_code : String
  source_path : String
  artifact_json : String
  config : TransformConfig

/-- TransformInputRef for the reusable-instance entry point: the artifact
is already deserialized. -/
structure TransformInputRef where
  source_code : String
  source_path : String
  artifact : BuilderArtifact
  config : TransformConfig

/-- TransformResult from transformer.rs. -/
structure TransformResult where
  output_code : String
  transformed : Bool
  errors : List PluginError
  source_map : Option String
deriving DecidableEq, Repr

/-- Output of code emission (EmitOutput in transformer.rs); emission itself
is swc_core codegen, threaded through as a function parameter. -/
structure EmitOutput where
  code : String
  source_map : Option String

/-! ## Canonical id resolution

Two generations of resolve_canonical_id coexist in the repository:
the swc crate's version (analysis.rs lines 235-240) normalizes path
separators, the swc-transformer crate's version (analysis.rs lines
208-210) concatenates the raw path.
-/

/-- resolve_canonical_id of the swc crate: normalizes backslashes to
forward slashes before joining with the scope path. -/
def resolve_canonical_id (file_path ast_path : String) : String :=
  normalizePath file_path ++ "::" ++ ast_path

/-- resolve_canonical_id of the swc-transformer crate: joins the raw
file path with the scope path, with no separator normalization. -/
def resolve_canonical_id_transformer (file_path ast_path : String) : String :=
  file_path ++ "::" ++ ast_path

/-! ## Metadata collector (swc-transformer/src/transform/metadata.rs) -/

/-- GqlDefinitionMetadata from metadata.rs. -/
structure GqlDefinitionMetadata where
  ast_path : String
  is_top_level : Bool
  is_exported : Bool
  export_binding : Option String
deriving DecidableEq, Repr

/-- MetadataMap: call span to metadata. -/
def MetadataMap := List (Nat × GqlDefinitionMetadata)

/-- Mutable state of the MetadataCollector: the scope stack (this list is
top-first; the Rust Vec pushes at the back, so joining reverses), the
collected metadata and the shared counter table used both for anonymous
scope names and for scope-path disambiguation. -/
structure CollectorState where
  export_bindings : List (String × String)
  scope_stack : List String
  metadata : List (Nat × GqlDefinitionMetadata)
  anonymous_counters : List (String × Nat)

/-- MetadataCollector::collect_export_bindings. The export forms it
recognizes (ESM named exports, export declarations, CommonJS assignment
expressions) all lie outside the embedded statement sublanguage, so on
embedded modules it returns the empty map, which is what the Rust loop
computes when no item matches its patterns. -/
def collect_export_bindings (_m : JModule) : List (String × String) := []

/-- MetadataCollector::get_ast_path: scope segments joined by dots. -/
def get_ast_path (st : CollectorState) : String :=
  String.intercalate "." st.scope_stack.reverse

/-- MetadataCollector::get_anonymous_name: per-kind counter-named scope. -/
def get_anonymous_name (st : CollectorState) (kind : String) : String × CollectorState :=
  let count := (alistGet st.anonymous_counters kind).getD 0
  let name := kind ++ "#" ++ natToDecimal count
  (name, { st with anonymous_counters := alistInsert st.anonymous_counters kind (count + 1) })

/-- MetadataCollector::register_definition: the joined scope path, with a
dollar-count suffix when the shared counter for that base is nonzero. -/
def register_definition (st : CollectorState) : String × CollectorState :=
  let base_path := get_ast_path st
  let count := (alistGet st.anonymous_counters base_path).getD 0
  let path := if count = 0 then base_path else base_path ++ "$" ++ natToDecimal count
  (path, { st with anonymous_counters := alistInsert st.anonymous_counters base_path (count + 1) })

/-- MetadataCollector::enter_scope (the kind string is never read). -/
def enter_scope (st : CollectorState) (segment : String) : CollectorState :=
  { st with scope_stack := segment :: st.scope_stack }

/-- MetadataCollector::exit_scope. -/
def exit_scope (st : CollectorState) : CollectorState :=
  { st with scope_stack := st.scope_stack.tail }

/-- is_gql_reference from metadata.rs and analysis.rs (both crates define
the same function): the identifier gql as the base of a member chain, or
as a property name anywhere along it. -/
def is_gql_reference : JExpr → Bool
  | .ident sym => sym == "gql"
  | .member obj prop =>
    (match prop with
     | .ident s => s == "gql"
     | _ => false) || is_gql_reference obj
  | _ => false

/-- MetadataCollector::is_gql_definition_call: callee is a member chain
whose object is a gql reference and the first argument is an arrow
function (the argument count and spread flag are not checked here). -/
def is_gql_definition_call : JExpr → Bool
  | .call _ callee args =>
    (match callee with
     | .member obj _ => is_gql_reference obj
     | _ => false) &&
    (match argsFirst args with
     | some (_, .arrow _ _) => true
     | _ => false)
  | _ => false

/-- MetadataCollector::resolve_export_info: only single-segment scope
stacks are looked up in the export binding map. -/
def resolve_export_info (st : CollectorState) : Option String :=
  if st.scope_stack.length = 1 then
    alistGet st.export_bindings (st.scope_stack.headD "")
  else
    none

mutual
/-- Visit trait traversal of MetadataCollector over expressions: the
overridden visitors (call, arrow, function expression, object property)
with default child recursion elsewhere. A gql definition call is
registered and its children are skipped. -/
def collectExpr (st : CollectorState) : JExpr → CollectorState
  | .ident _ => st
  | .strLit _ => st
  | .member obj prop =>
    let st1 := collectExpr st obj
    collectMProp st1 prop
  | .call sp callee args =>
    if is_gql_definition_call (.call sp callee args) then
      let (path, st1) := register_definition st
      let topLevel : Bool := decide (st1.scope_stack.length ≤ 1)
      let exportBinding := resolve_export_info st1
      let meta : GqlDefinitionMetadata :=
        { ast_path := path
          is_top_level := topLevel
          is_exported := exportBinding.isSome
          export_binding := exportBinding }
      { st1 with metadata := alistInsert st1.metadata sp meta }
    else
      collectArgs (collectExpr st callee) args
  | .arrow _ body =>
    let (name, st1) := get_anonymous_name st "arrow"
    exit_scope (collectArrowBody (enter_scope st1 name) body)
  | .fnExpr nameOpt body =>
    let (name, st1) :=
      match nameOpt with
      | some n => (n, st)
      | none => get_anonymous_name st "function"
    exit_scope (collectStmts (enter_scope st1 name) body)
  | .objectLit props => collectProps st props
  | .otherExpr => st
def collectMProp (st : CollectorState) : MProp → CollectorState
  | .ident _ => st
  | .computed e => collectExpr st e
  | .otherProp => st
def collectArgs (st : CollectorState) : JArgs → CollectorState
  | .nil => st
  | .cons _ e tl => collectArgs (collectExpr st e) tl
def collectArrowBody (st : CollectorState) : JArrowBody → CollectorState
  | .expr e => collectExpr st e
  | .block stmts => collectStmts st stmts
def collectProps (st : CollectorState) : JProps → CollectorState
  | .nil => st
  | .cons p tl => collectProps (collectProp st p) tl
def collectProp (st : CollectorState) : JProp → CollectorState
  | .keyValue key value =>
    (match key with
     | .ident s => exit_scope (collectExpr (enter_scope st s) value)
     | .str s => exit_scope (collectExpr (enter_scope st s) value)
     | .computed e => collectExpr (collectExpr st e) value
     | .otherName => collectExpr st value)
  | .otherProp => st
def collectStmts (st : CollectorState) : JStmts → CollectorState
  | .nil => st
  | .cons s tl => collectStmts (collectStmt st s) tl
def collectStmt (st : CollectorState) : JStmt → CollectorState
  | .varDecl decls => collectDecls st decls
  | .fnDecl name body => exit_scope (collectStmts (enter_scope st name) body)
  | .exprStmt e => collectExpr st e
  | .retStmt arg => collectExpr st arg
  | .retNone => st
  | .otherStmt => st
def collectDecls (st : CollectorState) : JDeclarators → CollectorState
  | .nil => st
  | .cons d tl => collectDecls (collectDeclarator st d) tl
def collectDeclarator (st : CollectorState) : JDeclarator → CollectorState
  | .identInit name init => exit_scope (collectExpr (enter_scope st name) init)
  | .identNoInit name => exit_scope (enter_scope st name)
  | .otherInit init => collectExpr st init
  | .otherNoInit => st
end

/-- Traversal over one module item (import declarations have no
collector-visible children). -/
def collectModuleItem (st : CollectorState) : ModuleItem → CollectorState
  | .importDecl _ _ => st
  | .stmt s => collectStmt st s
  | .otherModuleDecl => st

/-- MetadataCollector::collect: export-binding pass then scope-path pass. -/
def MetadataCollector.collect (m : JModule) (_source_path : String) : MetadataMap :=
  let st0 : CollectorState :=
    { export_bindings := collect_export_bindings m
      scope_stack := []
      metadata := []
      anonymous_counters := [] }
  (m.body.foldl collectModuleItem st0).metadata

/-! ## Call analyzer (swc/src/transform/analysis.rs)

This is the finder generation the orchestrator in transformer.rs is
written against (it calls take_errors, which only this generation has);
its shape match accepts arrow functions and function expressions.
-/

/-- GqlReplacement from analysis.rs. -/
structure GqlReplacement where
  canonical_id : String
  artifact : BuilderArtifactElement
  builder_args : JArgs

/-- Mutable state of GqlCallFinder. -/
structure FinderState where
  replacements : List (Nat × GqlReplacement)
  has_transforms : Bool
  errors : List PluginError

/-- is_gql_member_expression from analysis.rs: the callee must be a
member expression whose object chain is a gql reference. -/
def is_gql_member_expression : JExpr → Bool
  | .member obj _ => is_gql_reference obj
  | _ => false

/-- extract_call_from_block: the first return statement whose argument is
a call expression. -/
def extract_call_from_block : JStmts → Option JExpr
  | .nil => none
  | .cons (.retStmt (.call sp c a)) _ => some (.call sp c a)
  | .cons _ tl => extract_call_from_block tl

/-- extract_builder_call_from_arrow: an expression body must itself be a
call; a block body is scanned for a returned call. -/
def extract_builder_call_from_arrow : JArrowBody → Option JExpr
  | .expr (.call sp c a) => some (.call sp c a)
  | .expr _ => none
  | .block stmts => extract_call_from_block stmts

/-- extract_builder_call_from_fn: scan the function body block. -/
def extract_builder_call_from_fn (body : JStmts) : Option JExpr :=
  extract_call_from_block body

/-- find_gql_builder_call: gql member callee, exactly one non-spread
argument that is an arrow function or a function expression, whose body
yields an inner builder call. -/
def find_gql_builder_call : JExpr → Option JExpr
  | .call _ callee args =>
    if is_gql_member_expression callee then
      if argsLen args = 1 then
        match argsFirst args with
        | some (false, .arrow _ body) => extract_builder_call_from_arrow body
        | some (false, .fnExpr _ body) => extract_builder_call_from_fn body
        | _ => none
      else none
    else none
  | _ => none

/-- Argument list of a call expression (used to capture the inner builder
call's arguments; for non-calls it is empty, a case process_call never
hits because find_gql_builder_call only returns calls). -/
def callArgsOf : JExpr → JArgs
  | .call _ _ args => args
  | _ => .nil

/-- GqlCallFinder::process_call for a call expression with span sp and
arguments args: shape-match, metadata lookup, canonical id resolution and
artifact lookup, recording a replacement or a diagnostic. -/
def process_call (artifact : BuilderArtifact) (metadata : MetadataMap) (source_path : String)
    (st : FinderState) (sp : Nat) (callee : JExpr) (args : JArgs) : FinderState :=
  match find_gql_builder_call (.call sp callee args) with
  | none => st
  | some builderCall =>
    match alistGet metadata sp with
    | none => { st with errors := st.errors ++ [PluginError.metadata_not_found source_path] }
    | some meta =>
      let canonicalId := resolve_canonical_id source_path meta.ast_path
      match artifact canonicalId with
      | none =>
        { st with errors := st.errors ++ [PluginError.artifact_not_found source_path canonicalId] }
      | some a =>
        let repl : GqlReplacement :=
          { canonical_id := canonicalId, artifact := a, builder_args := callArgsOf builderCall }
        { st with replacements := alistInsert st.replacements sp repl, has_transforms := true }

mutual
/-- Visit trait traversal of GqlCallFinder: every call expression is
processed and then all children are visited (no pruning). -/
def finderExpr (artifact : BuilderArtifact) (metadata : MetadataMap) (source_path : String)
    (st : FinderState) : JExpr → FinderState
  | .ident _ => st
  | .strLit _ => st
  | .member obj prop =>
    finderMProp artifact metadata source_path (finderExpr artifact metadata source_path st obj) prop
  | .call sp callee args =>
    let st1 := process_call artifact metadata source_path st sp callee args
    finderArgs artifact metadata source_path (finderExpr artifact metadata source_path st1 callee) args
  | .arrow _ body => finderArrowBody artifact metadata source_path st body
  | .fnExpr _ body => finderStmts artifact metadata source_path st body
  | .objectLit props => finderProps artifact metadata source_path st props
  | .otherExpr => st
def finderMProp (artifact : BuilderArtifact) (metadata : MetadataMap) (source_path : String)
    (st : FinderState) : MProp → FinderState
  | .ident _ => st
  | .computed e => finderExpr artifact metadata source_path st e
  | .otherProp => st
def finderArgs (artifact : BuilderArtifact) (metadata : MetadataMap) (source_path : String)
    (st : FinderState) : JArgs → FinderState
  | .nil => st
  | .cons _ e tl => finderArgs artifact metadata source_path (finderExpr artifact metadata source_path st e) tl
def finderArrowBody (artifact : BuilderArtifact) (metadata : MetadataMap) (source_path : String)
    (st : FinderState) : JArrowBody → FinderState
  | .expr e => finderExpr artifact metadata source_path st e
  | .block stmts => finderStmts artifact metadata source_path st stmts
def finderProps (artifact : BuilderArtifact) (metadata : MetadataMap) (source_path : String)
    (st : FinderState) : JProps → FinderState
  | .nil => st
  | .cons p tl => finderProps artifact metadata source_path (finderProp artifact metadata source_path st p) tl
def finderProp (artifact : BuilderArtifact) (metadata : MetadataMap) (source_path : String)
    (st : FinderState) : JProp → FinderState
  | .keyValue key value =>
    finderExpr artifact metadata source_path (finderPName artifact metadata source_path st key) value
  | .otherProp => st
def finderPName (artifact : BuilderArtifact) (metadata : MetadataMap) (source_path : String)
    (st : FinderState) : PName → FinderState
  | .ident _ => st
  | .str _ => st
  | .computed e => finderExpr artifact metadata source_path st e
  | .otherName => st
def finderStmts (artifact : BuilderArtifact) (metadata : MetadataMap) (source_path : String)
    (st : FinderState) : JStmts → FinderState
  | .nil => st
  | .cons s tl => finderStmts artifact metadata source_path (finderStmt artifact metadata source_path st s) tl
def finderStmt (artifact : BuilderArtifact) (metadata : MetadataMap) (source_path : String)
    (st : FinderState) : JStmt → FinderState
  | .varDecl decls => finderDecls artifact metadata source_path st decls
  | .fnDecl _ body => finderStmts artifact metadata source_path st body
  | .exprStmt e => finderExpr artifact metadata source_path st e
  | .retStmt arg => finderExpr artifact metadata source_path st arg
  | .retNone => st
  | .otherStmt => st
def finderDecls (artifact : BuilderArtifact) (metadata : MetadataMap) (source_path : String)
    (st : FinderState) : JDeclarators → FinderState
  | .nil => st
  | .cons d tl => finderDecls artifact metadata source_path (finderDeclarator artifact metadata source_path st d) tl
def finderDeclarator (artifact : BuilderArtifact) (metadata : MetadataMap) (source_path : String)
    (st : FinderState) : JDeclarator → FinderState
  | .identInit _ init => finderExpr artifact metadata source_path st init
  | .identNoInit _ => st
  | .otherInit init => finderExpr artifact metadata source_path st init
  | .otherNoInit => st
end

/-- Finder traversal over one module item. -/
def finderModuleItem (artifact : BuilderArtifact) (metadata : MetadataMap) (source_path : String)
    (st : FinderState) : ModuleItem → FinderState
  | .importDecl _ _ => st
  | .stmt s => finderStmt artifact metadata source_path st s
  | .otherModuleDecl => st

/-- Full finder run over a module, from the fresh GqlCallFinder state. -/
def runFinder (artifact : BuilderArtifact) (metadata : MetadataMap) (source_path : String)
    (m : JModule) : FinderState :=
  m.body.foldl (finderModuleItem artifact metadata source_path)
    { replacements := [], has_transforms := false, errors := [] }

/-- GqlCallFinder::get_replacement, keyed by call span. -/
def get_replacement (st : FinderState) (sp : Nat) : Option GqlReplacement :=
  alistGet st.replacements sp

/-! ## Replacement synthesizer (swc-transformer/src/transform/runtime.rs)

serde_json::to_string for the operation prebuild payload is external and
is threaded through as a parameter; synthesized nodes carry DUMMY_SP,
embedded as span 0.
-/

/-- RUNTIME_MODULE constant. -/
def RUNTIME_MODULE : String := "@soda-gql/runtime"

/-- RUNTIME_IMPORT_NAME constant. -/
def RUNTIME_IMPORT_NAME : String := "gqlRuntime"

/-- CJS_RUNTIME_NAME constant. -/
def CJS_RUNTIME_NAME : String := "__soda_gql_runtime"

/-- RuntimeCallBuilder::create_runtime_accessor. -/
def create_runtime_accessor (is_cjs : Bool) : JExpr :=
  if is_cjs then
    .member (.ident CJS_RUNTIME_NAME) (.ident RUNTIME_IMPORT_NAME)
  else
    .ident RUNTIME_IMPORT_NAME

/-- RuntimeCallBuilder::create_runtime_call. -/
def create_runtime_call (is_cjs : Bool) (method : String) (args : JArgs) : JExpr :=
  .call 0 (.member (create_runtime_accessor is_cjs) (.ident method)) args

/-- RuntimeCallBuilder::create_object_lit. -/
def create_object_lit (props : List (String × JExpr)) : JExpr :=
  .objectLit (props.foldr (fun (kv : String × JExpr) acc => .cons (.keyValue (.ident kv.1) kv.2) acc) .nil)

/-- RuntimeCallBuilder::create_string_lit. -/
def create_string_lit (value : String) : JExpr := .strLit value

/-- RuntimeCallBuilder::create_json_parse. -/
def create_json_parse (json : String) : JExpr :=
  .call 0 (.member (.ident "JSON") (.ident "parse")) (.cons false (.strLit json) .nil)

/-- RuntimeCallBuilder::build_model_call: requires the third inner builder
argument (the normalize callback); without it no expression is produced. -/
def build_model_call (is_cjs : Bool) (prebuild : ModelPrebuild) (builder_args : JArgs) :
    Option JExpr :=
  match argsGet builder_args 2 with
  | none => none
  | some (_, normalize) =>
    let arg := create_object_lit
      [("prebuild", create_object_lit [("typename", create_string_lit prebuild.typename)]),
       ("runtime", create_object_lit [("normalize", normalize)])]
    some (create_runtime_call is_cjs "model" (.cons false arg .nil))

/-- RuntimeCallBuilder::build_composed_operation_calls: requires the second
inner builder argument (the slices callback) and a successful serde
serialization of the prebuild payload; produces the lookup reference
expression and the deferred registration statement. -/
def build_composed_operation_calls (is_cjs : Bool)
    (serializeOp : OperationPrebuild → Option String) (prebuild : OperationPrebuild)
    (builder_args : JArgs) : Option (JExpr × Option JStmt) :=
  match argsGet builder_args 1 with
  | none => none
  | some (_, slicesBuilder) =>
    match serializeOp prebuild with
    | none => none
    | some prebuildJson =>
      let runtimeCallExpr := create_runtime_call is_cjs "composedOperation"
        (.cons false (create_object_lit
          [("prebuild", create_json_parse prebuildJson),
           ("runtime", create_object_lit [("getSlices", slicesBuilder)])]) .nil)
      let referenceCall := create_runtime_call is_cjs "getComposedOperation"
        (.cons false (create_string_lit prebuild.operation_name) .nil)
      some (referenceCall, some (.exprStmt runtimeCallExpr))

/-- RuntimeCallBuilder::build_replacement: dispatch on the artifact kind. -/
def build_replacement (is_cjs : Bool) (serializeOp : OperationPrebuild → Option String)
    (replacement : GqlReplacement) : Option (JExpr × Option JStmt) :=
  match replacement.artifact with
  | .model prebuild =>
    (build_model_call is_cjs prebuild replacement.builder_args).map (fun e => (e, none))
  | .operation prebuild =>
    build_composed_operation_calls is_cjs serializeOp prebuild replacement.builder_args

/-! ## AST rewriter (GqlTransformer in transformer.rs)

The rewriter looks replacements up by call span through the finder's
map; here that lookup is threaded as a function from spans to optional
replacement directives.
-/

/-- Mutable state of GqlTransformer. -/
structure TransformerState where
  needs_runtime : Bool
  runtime_calls : List JStmt
  errors : List PluginError

/-- Artifact type label used in the rewriter's error branch. -/
def artifactTypeName : BuilderArtifactElement → String
  | .model _ => "model"
  | .operation _ => "operation"

/-- Post-children step of GqlTransformer::visit_mut_expr on one (already
children-rewritten) expression: a call with a recorded directive is
replaced on synthesis success (deferring the registration statement), or
left unchanged with a MissingBuilderArg diagnostic on failure. -/
def applyReplacement (repl : Nat → Option GqlReplacement) (is_cjs : Bool)
    (serializeOp : OperationPrebuild → Option String) (source_path : String)
    (st : TransformerState) (e : JExpr) : JExpr × TransformerState :=
  match e with
  | .call sp _ _ =>
    match repl sp with
    | none => (e, st)
    | some replacement =>
      let st1 := { st with needs_runtime := true }
      match build_replacement is_cjs serializeOp replacement with
      | some (referenceExpr, runtimeStmt) =>
        let st2 :=
          match runtimeStmt with
          | some s => { st1 with runtime_calls := st1.runtime_calls ++ [s] }
          | none => st1
        (referenceExpr, st2)
      | none =>
        let err := PluginError.missing_builder_arg source_path
          (artifactTypeName replacement.artifact) "builder callback"
        (e, { st1 with errors := st1.errors ++ [err] })
  | _ => (e, st)

mutual
/-- VisitMut traversal of GqlTransformer over expressions: children are
rewritten first, then the directive for the resulting call is applied. -/
def transformExpr (repl : Nat → Option GqlReplacement) (is_cjs : Bool)
    (serializeOp : OperationPrebuild → Option String) (source_path : String)
    (st : TransformerState) : JExpr → JExpr × TransformerState
  | .ident sym => (.ident sym, st)
  | .strLit v => (.strLit v, st)
  | .member obj prop =>
    let (obj', st1) := transformExpr repl is_cjs serializeOp source_path st obj
    let (prop', st2) := transformMProp repl is_cjs serializeOp source_path st1 prop
    (.member obj' prop', st2)
  | .call sp callee args =>
    let (callee', st1) := transformExpr repl is_cjs serializeOp source_path st callee
    let (args', st2) := transformArgs repl is_cjs serializeOp source_path st1 args
    applyReplacement repl is_cjs serializeOp source_path st2 (.call sp callee' args')
  | .arrow sp body =>
    let (body', st1) := transformArrowBody repl is_cjs serializeOp source_path st body
    (.arrow sp body', st1)
  | .fnExpr name body =>
    let (body', st1) := transformStmts repl is_cjs serializeOp source_path st body
    (.fnExpr name body', st1)
  | .objectLit props =>
    let (props', st1) := transformProps repl is_cjs serializeOp source_path st props
    (.objectLit props', st1)
  | .otherExpr => (.otherExpr, st)
def transformMProp (repl : Nat → Option GqlReplacement) (is_cjs : Bool)
    (serializeOp : OperationPrebuild → Option String) (source_path : String)
    (st : TransformerState) : MProp → MProp × TransformerState
  | .ident s => (.ident s, st)
  | .computed e =>
    let (e', st1) := transformExpr repl is_cjs serializeOp source_path st e
    (.computed e', st1)
  | .otherProp => (.otherProp, st)
def transformArgs (repl : Nat → Option GqlReplacement) (is_cjs : Bool)
    (serializeOp : OperationPrebuild → Option String) (source_path : String)
    (st : TransformerState) : JArgs → JArgs × TransformerState
  | .nil => (.nil, st)
  | .cons spread e tl =>
    let (e', st1) := transformExpr repl is_cjs serializeOp source_path st e
    let (tl', st2) := transformArgs repl is_cjs serializeOp source_path st1 tl
    (.cons spread e' tl', st2)
def transformArrowBody (repl : Nat → Option GqlReplacement) (is_cjs : Bool)
    (serializeOp : OperationPrebuild → Option String) (source_path : String)
    (st : TransformerState) : JArrowBody → JArrowBody × TransformerState
  | .expr e =>
    let (e', st1) := transformExpr repl is_cjs serializeOp source_path st e
    (.expr e', st1)
  | .block stmts =>
    let (stmts', st1) := transformStmts repl is_cjs serializeOp source_path st stmts
    (.block stmts', st1)
def transformProps (repl : Nat → Option GqlReplacement) (is_cjs : Bool)
    (serializeOp : OperationPrebuild → Option String) (source_path : String)
    (st : TransformerState) : JProps → JProps × TransformerState
  | .nil => (.nil, st)
  | .cons p tl =>
    let (p', st1) := transformProp repl is_cjs serializeOp source_path st p
    let (tl', st2) := transformProps repl is_cjs serializeOp source_path st1 tl
    (.cons p' tl', st2)
def transformProp (repl : Nat → Option GqlReplacement) (is_cjs : Bool)
    (serializeOp : OperationPrebuild → Option String) (source_path : String)
    (st : TransformerState) : JProp → JProp × TransformerState
  | .keyValue key value =>
    let (key', st1) := transformPName repl is_cjs serializeOp source_path st key
    let (value', st2) := transformExpr repl is_cjs serializeOp source_path st1 value
    (.keyValue key' value', st2)
  | .otherProp => (.otherProp, st)
def transformPName (repl : Nat → Option GqlReplacement) (is_cjs : Bool)
    (serializeOp : OperationPrebuild → Option String) (source_path : String)
    (st : TransformerState) : PName → PName × TransformerState
  | .ident s => (.ident s, st)
  | .str s => (.str s, st)
  | .computed e =>
    let (e', st1) := transformExpr repl is_cjs serializeOp source_path st e
    (.computed e', st1)
  | .otherName => (.otherName, st)
def transformStmts (repl : Nat → Option GqlReplacement) (is_cjs : Bool)
    (serializeOp : OperationPrebuild → Option String) (source_path : String)
    (st : TransformerState) : JStmts → JStmts × TransformerState
  | .nil => (.nil, st)
  | .cons s tl =>
    let (s', st1) := transformStmt repl is_cjs serializeOp source_path st s
    let (tl', st2) := transformStmts repl is_cjs serializeOp source_path st1 tl
    (.cons s' tl', st2)
def transformStmt (repl : Nat → Option GqlReplacement) (is_cjs : Bool)
    (serializeOp : OperationPrebuild → Option String) (source_path : String)
    (st : TransformerState) : JStmt → JStmt × TransformerState
  | .varDecl decls =>
    let (decls', st1) := transformDecls repl is_cjs serializeOp source_path st decls
    (.varDecl decls', st1)
  | .fnDecl name body =>
    let (body', st1) := transformStmts repl is_cjs serializeOp source_path st body
    (.fnDecl name body', st1)
  | .exprStmt e =>
    let (e', st1) := transformExpr repl is_cjs serializeOp source_path st e
    (.exprStmt e', st1)
  | .retStmt arg =>
    let (arg', st1) := transformExpr repl is_cjs serializeOp source_path st arg
    (.retStmt arg', st1)
  | .retNone => (.retNone, st)
  | .otherStmt => (.otherStmt, st)
def transformDecls (repl : Nat → Option GqlReplacement) (is_cjs : Bool)
    (serializeOp : OperationPrebuild → Option String) (source_path : String)
    (st : TransformerState) : JDeclarators → JDeclarators × TransformerState
  | .nil => (.nil, st)
  | .cons d tl =>
    let (d', st1) := transformDeclarator repl is_cjs serializeOp source_path st d
    let (tl', st2) := transformDecls repl is_cjs serializeOp source_path st1 tl
    (.cons d' tl', st2)
def transformDeclarator (repl : Nat → Option GqlReplacement) (is_cjs : Bool)
    (serializeOp : OperationPrebuild → Option String) (source_path : String)
    (st : TransformerState) : JDeclarator → JDeclarator × TransformerState
  | .identInit name init =>
    let (init', st1) := transformExpr repl is_cjs serializeOp source_path st init
    (.identInit name init', st1)
  | .identNoInit name => (.identNoInit name, st)
  | .otherInit init =>
    let (init', st1) := transformExpr repl is_cjs serializeOp source_path st init
    (.otherInit init', st1)
  | .otherNoInit => (.otherNoInit, st)
end

/-- VisitMut traversal over one module item. -/
def transformModuleItem (repl : Nat → Option GqlReplacement) (is_cjs : Bool)
    (serializeOp : OperationPrebuild → Option String) (source_path : String)
    (st : TransformerState) : ModuleItem → ModuleItem × TransformerState
  | .importDecl specs src => (.importDecl specs src, st)
  | .stmt s =>
    let (s', st1) := transformStmt repl is_cjs serializeOp source_path st s
    (.stmt s', st1)
  | .otherModuleDecl => (.otherModuleDecl, st)

/-- Full rewriter run over a module from the fresh GqlTransformer state. -/
def runTransformer (repl : Nat → Option GqlReplacement) (is_cjs : Bool)
    (serializeOp : OperationPrebuild → Option String) (source_path : String)
    (m : JModule) : JModule × TransformerState :=
  match m.body.foldl
      (fun (acc : List ModuleItem × TransformerState) (item : ModuleItem) =>
        match transformModuleItem repl is_cjs serializeOp source_path acc.2 item with
        | (item', st') => (acc.1 ++ [item'], st'))
      ([], { needs_runtime := false, runtime_calls := [], errors := [] }) with
  | (body', st) => (⟨body'⟩, st)

/-! ## Import manager (swc-transformer/src/transform/imports.rs) -/

/-- ImportManager::is_graphql_system_import: exact alias match or a
slash-separated descendant. -/
def is_graphql_system_import (aliases : List String) (specifier : String) : Bool :=
  aliases.any (fun a => specifier == a || strStartsWith specifier (a ++ "/"))

/-- ImportManager::create_esm_import: import gqlRuntime from the runtime module. -/
def create_esm_import : ModuleItem :=
  .importDecl [.named RUNTIME_IMPORT_NAME] RUNTIME_MODULE

/-- ImportManager::create_cjs_require: const declaration binding the
CJS runtime name to require of the runtime module. This is a statement
item, not an import declaration. -/
def create_cjs_require : ModuleItem :=
  .stmt (.varDecl (.cons
    (.identInit CJS_RUNTIME_NAME
      (.call 0 (.ident "require") (.cons false (.strLit RUNTIME_MODULE) .nil)))
    .nil))

/-- extract_require_specifier from imports.rs: a literal-argument require
call, possibly wrapped in one interop helper layer. -/
def extract_require_specifier : JExpr → Option String
  | .call _ (.ident callee) args =>
    if callee == "require" then
      match args with
      | .cons _ (.strLit s) _ => some s
      | _ => none
    else if callee == "__importDefault" || callee == "__importStar" then
      match args with
      | .cons _ inner _ => extract_require_specifier inner
      | .nil => none
    else none
  | _ => none

/-- ImportManager::is_graphql_system_require over one declarator. -/
def is_graphql_system_require (aliases : List String) : JDeclarator → Bool
  | .identInit _ init =>
    (extract_require_specifier init).elim false (is_graphql_system_import aliases)
  | .otherInit init =>
    (extract_require_specifier init).elim false (is_graphql_system_import aliases)
  | _ => false

/-- Declarator list filtered of graphql-system requires (Vec::filter). -/
def filterRequireDecls (aliases : List String) : JDeclarators → JDeclarators
  | .nil => .nil
  | .cons d tl =>
    if is_graphql_system_require aliases d then filterRequireDecls aliases tl
    else .cons d (filterRequireDecls aliases tl)

/-- Declarator list length. -/
def declsLen : JDeclarators → Nat
  | .nil => 0
  | .cons _ tl => declsLen tl + 1

/-- ImportManager::has_runtime_import on an import declaration. -/
def has_runtime_import (specs : List ImportSpecifier) (src : String) : Bool :=
  src == RUNTIME_MODULE &&
    specs.any (fun s =>
      match s with
      | .named localSym => localSym == RUNTIME_IMPORT_NAME
      | .other => false)

/-- Loop state of ImportManager::visit_mut_module. -/
structure IMState where
  newBody : List ModuleItem
  importInsertPos : Nat
  foundNonImport : Bool
  existingRuntimeImportIdx : Option Nat

/-- One iteration of the module-rebuilding loop of
ImportManager::visit_mut_module. -/
def imStep (aliases : List String) (st : IMState) (item : ModuleItem) : IMState :=
  match item with
  | .importDecl specs src =>
    if is_graphql_system_import aliases src then st
    else
      let st1 :=
        if src == RUNTIME_MODULE then
          { st with existingRuntimeImportIdx := some st.newBody.length }
        else st
      { st1 with
        importInsertPos := st1.newBody.length + 1
        newBody := st1.newBody ++ [.importDecl specs src] }
  | .stmt (.varDecl decls) =>
    let filtered := filterRequireDecls aliases decls
    if declsLen filtered = 0 then st
    else
      let kept : ModuleItem :=
        if declsLen filtered < declsLen decls then .stmt (.varDecl filtered)
        else .stmt (.varDecl decls)
      let st1 := { st with newBody := st.newBody ++ [kept] }
      let st2 :=
        if !st1.foundNonImport then { st1 with importInsertPos := st1.newBody.length }
        else st1
      { st2 with foundNonImport := true }
  | other =>
    let st1 :=
      if !st.foundNonImport then { st with importInsertPos := st.newBody.length }
      else st
    { st1 with foundNonImport := true, newBody := st1.newBody ++ [other] }

/-- The full rebuilding loop over a module body. -/
def imLoop (aliases : List String) (body : List ModuleItem) : IMState :=
  let st0 : IMState :=
    { newBody := [], importInsertPos := 0,
      foundNonImport := false, existingRuntimeImportIdx := none }
  body.foldl (imStep aliases) st0

/-- Merge of the runtime specifier into the import at the remembered index
(ImportManager's merge branch). -/
def mergeRuntimeSpecifier (body : List ModuleItem) (idx : Nat) : List ModuleItem :=
  match body.get? idx with
  | some (.importDecl specs src) =>
    body.set idx (.importDecl (specs ++ [.named RUNTIME_IMPORT_NAME]) src)
  | _ => body

/-- ImportManager::visit_mut_module as a function on the module: rebuild
the body dropping graphql-system imports and requires, then add or merge
the runtime import when needed. -/
def importManagerPass (needs_runtime_import is_cjs : Bool) (aliases : List String)
    (m : JModule) : JModule :=
  let st := imLoop aliases m.body
  if needs_runtime_import then
    let alreadyHas :=
      match st.existingRuntimeImportIdx with
      | some idx =>
        match st.newBody.get? idx with
        | some (.importDecl specs src) => has_runtime_import specs src
        | _ => false
      | none => false
    if !alreadyHas then
      match st.existingRuntimeImportIdx with
      | some idx => ⟨mergeRuntimeSpecifier st.newBody idx⟩
      | none =>
        let runtimeImport := if is_cjs then create_cjs_require else create_esm_import
        ⟨listInsertAt st.newBody st.importInsertPos runtimeImport⟩
    else ⟨st.newBody⟩
  else ⟨st.newBody⟩

/-! ## Statement inserter and stub check (transformer.rs) -/

/-- Whether a module item is an ESM import declaration. -/
def ModuleItem.isImport : ModuleItem → Bool
  | .importDecl _ _ => true
  | _ => false

/-- Insertion index scan of insert_runtime_calls: one past the last
ESM import declaration, or zero when there is none. -/
def runtimeInsertPos (body : List ModuleItem) : Nat :=
  (body.foldl
    (fun (acc : Nat × Nat) item =>
      (if item.isImport then acc.2 + 1 else acc.1, acc.2 + 1))
    (0, 0)).1

/-- insert_runtime_calls from transformer.rs: splice the pending
registration statements after the last import, as statement items. -/
def insert_runtime_calls (m : JModule) (calls : List JStmt) : JModule :=
  if calls.isEmpty then m
  else ⟨listSpliceAt m.body (runtimeInsertPos m.body) (calls.map ModuleItem.stmt)⟩

/-- is_graphql_system_file from transformer.rs: path-normalized equality
against the configured system file path, when one is configured. -/
def is_graphql_system_file (source_path : String) (graphql_system_path : Option String) : Bool :=
  match graphql_system_path with
  | some gqlPath => normalizePath source_path == normalizePath gqlPath
  | none => false

/-! ## Entry points (transformer.rs)

The SWC parser, the code emitter and serde_json are external crates, so
both entry points are parameterized by them: parseModule stands for the
lexer-parser combination (it receives the source path because the parser
is configured from the extension), emitModule for codegen plus source-map
building, parseArtifact for serde_json::from_str on the artifact JSON and
serializeOp for serde_json::to_string on operation prebuild payloads.
-/

/-- The fixed stub result returned for the graphql-system file. -/
def stubResult : TransformResult :=
  { output_code := "export \x7b\x7d;", transformed := true, errors := [], source_map := none }

/-- Pipeline shared by both entry points once the artifact and the parsed
module are at hand (transformer.rs lines 101-152 and 205-254). -/
def transformPipeline (emitModule : JModule → Bool → Except String EmitOutput)
    (serializeOp : OperationPrebuild → Option String) (artifact : BuilderArtifact)
    (source_code source_path : String) (config : TransformConfig) (m : JModule) :
    Except String TransformResult :=
  let metadata := MetadataCollector.collect m source_path
  let finder := runFinder artifact metadata source_path m
  if !finder.has_transforms then
    .ok { output_code := source_code, transformed := false,
          errors := finder.errors, source_map := none }
  else
    let (m1, tstate) := runTransformer (get_replacement finder) config.is_cjs
      serializeOp source_path m
    let m2 := importManagerPass tstate.needs_runtime config.is_cjs
      config.graphql_system_aliases m1
    let m3 := if !tstate.runtime_calls.isEmpty then insert_runtime_calls m2 tstate.runtime_calls
      else m2
    match emitModule m3 config.source_map with
    | .error e => .error e
    | .ok emitOutput =>
      .ok { output_code := emitOutput.code, transformed := true,
            errors := finder.errors ++ tstate.errors, source_map := emitOutput.source_map }

/-- transform_source: the one-shot entry point; deserializes the artifact,
parses the source and runs the pipeline, after the stub short-circuit. -/
def transform_source (parseModule : String → String → Except String JModule)
    (emitModule : JModule → Bool → Except String EmitOutput)
    (parseArtifact : String → Except String BuilderArtifact)
    (serializeOp : OperationPrebuild → Option String)
    (input : TransformInput) : Except String TransformResult :=
  if is_graphql_system_file input.source_path input.config.graphql_system_path then
    .ok stubResult
  else
    match parseArtifact input.artifact_json with
    | .error e => .error ("Failed to parse artifact: " ++ e)
    | .ok artifact =>
      match parseModule input.source_path input.source_code with
      | .error e => .error ("Parse error: " ++ e)
      | .ok m =>
        transformPipeline emitModule serializeOp artifact
          input.source_code input.source_path input.config m

/-- transform_source_ref: the reusable-instance entry point with a
pre-deserialized artifact. -/
def transform_source_ref (parseModule : String → String → Except String JModule)
    (emitModule : JModule → Bool → Except String EmitOutput)
    (serializeOp : OperationPrebuild → Option String)
    (input : TransformInputRef) : Except String TransformResult :=
  if is_graphql_system_file input.source_path input.config.graphql_system_path then
    .ok stubResult
  else
    match parseModule input.source_path input.source_code with
    | .error e => .error ("Parse error: " ++ e)
    | .ok m =>
      transformPipeline emitModule serializeOp input.artifact
        input.source_code input.source_path input.config m

/-! ## Derived observations used by the claim statements -/

mutual
/-- Spans of the calls the analyzer shape-matches (find_gql_builder_call
succeeds), in the finder's visit order. -/
def matchedSpansE : JExpr → List Nat
  | .ident _ => []
  | .strLit _ => []
  | .member obj prop => matchedSpansE obj ++ matchedSpansMProp prop
  | .call sp callee args =>
    (if (find_gql_builder_call (.call sp callee args)).isSome then [sp] else []) ++
      matchedSpansE callee ++ matchedSpansArgs args
  | .arrow _ body => matchedSpansBody body
  | .fnExpr _ body => matchedSpansStmts body
  | .objectLit props => matchedSpansProps props
  | .otherExpr => []
def matchedSpansMProp : MProp → List Nat
  | .ident _ => []
  | .computed e => matchedSpansE e
  | .otherProp => []
def matchedSpansArgs : JArgs → List Nat
  | .nil => []
  | .cons _ e tl => matchedSpansE e ++ matchedSpansArgs tl
def matchedSpansBody : JArrowBody → List Nat
  | .expr e => matchedSpansE e
  | .block stmts => matchedSpansStmts stmts
def matchedSpansProps : JProps → List Nat
  | .nil => []
  | .cons p tl => matchedSpansProp p ++ matchedSpansProps tl
def matchedSpansProp : JProp → List Nat
  | .keyValue key value => matchedSpansPName key ++ matchedSpansE value
  | .otherProp => []
def matchedSpansPName : PName → List Nat
  | .ident _ => []
  | .str _ => []
  | .computed e => matchedSpansE e
  | .otherName => []
def matchedSpansStmts : JStmts → List Nat
  | .nil => []
  | .cons s tl => matchedSpansStmt s ++ matchedSpansStmts tl
def matchedSpansStmt : JStmt → List Nat
  | .varDecl decls => matchedSpansDecls decls
  | .fnDecl _ body => matchedSpansStmts body
  | .exprStmt e => matchedSpansE e
  | .retStmt arg => matchedSpansE arg
  | .retNone => []
  | .otherStmt => []
def matchedSpansDecls : JDeclarators → List Nat
  | .nil => []
  | .cons d tl => matchedSpansDecl d ++ matchedSpansDecls tl
def matchedSpansDecl : JDeclarator → List Nat
  | .identInit _ init => matchedSpansE init
  | .identNoInit _ => []
  | .otherInit init => matchedSpansE init
  | .otherNoInit => []
end

/-- Matched spans of one module item. -/
def matchedSpansItem : ModuleItem → List Nat
  | .importDecl _ _ => []
  | .stmt s => matchedSpansStmt s
  | .otherModuleDecl => []

/-- Matched spans of a module: the builder-shaped calls it contains. -/
def matchedSpansModule (m : JModule) : List Nat :=
  m.body.flatMap matchedSpansItem

mutual
/-- Whether a subtree contains a collector-registrable call
(is_gql_definition_call) anywhere, the call itself included. -/
def hasDefCallE : JExpr → Bool
  | .ident _ => false
  | .strLit _ => false
  | .member obj prop => hasDefCallE obj || hasDefCallMProp prop
  | .call sp callee args =>
    is_gql_definition_call (.call sp callee args) || hasDefCallE callee || hasDefCallArgs args
  | .arrow _ body => hasDefCallBody body
  | .fnExpr _ body => hasDefCallStmts body
  | .objectLit props => hasDefCallProps props
  | .otherExpr => false
def hasDefCallMProp : MProp → Bool
  | .ident _ => false
  | .computed e => hasDefCallE e
  | .otherProp => false
def hasDefCallArgs : JArgs → Bool
  | .nil => false
  | .cons _ e tl => hasDefCallE e || hasDefCallArgs tl
def hasDefCallBody : JArrowBody → Bool
  | .expr e => hasDefCallE e
  | .block stmts => hasDefCallStmts stmts
def hasDefCallProps : JProps → Bool
  | .nil => false
  | .cons p tl => hasDefCallProp p || hasDefCallProps tl
def hasDefCallProp : JProp → Bool
  | .keyValue key value => hasDefCallPName key || hasDefCallE value
  | .otherProp => false
def hasDefCallPName : PName → Bool
  | .ident _ => false
  | .str _ => false
  | .computed e => hasDefCallE e
  | .otherName => false
def hasDefCallStmts : JStmts → Bool
  | .nil => false
  | .cons s tl => hasDefCallStmt s || hasDefCallStmts tl
def hasDefCallStmt : JStmt → Bool
  | .varDecl decls => hasDefCallDecls decls
  | .fnDecl _ body => hasDefCallStmts body
  | .exprStmt e => hasDefCallE e
  | .retStmt arg => hasDefCallE arg
  | .retNone => false
  | .otherStmt => false
def hasDefCallDecls : JDeclarators → Bool
  | .nil => false
  | .cons d tl => hasDefCallDecl d || hasDefCallDecls tl
def hasDefCallDecl : JDeclarator → Bool
  | .identInit _ init => hasDefCallE init
  | .identNoInit _ => false
  | .otherInit init => hasDefCallE init
  | .otherNoInit => false
end

mutual
/-- Whether no registrable call is nested inside another registrable
call's subtree (the collector skips the children of registered calls, so
nesting is where its map can miss analyzer-matched calls). -/
def noNestedDefE : JExpr → Bool
  | .ident _ => true
  | .strLit _ => true
  | .member obj prop => noNestedDefE obj && noNestedDefMProp prop
  | .call sp callee args =>
    if is_gql_definition_call (.call sp callee args) then
      !hasDefCallE callee && !hasDefCallArgs args
    else
      noNestedDefE callee && noNestedDefArgs args
  | .arrow _ body => noNestedDefBody body
  | .fnExpr _ body => noNestedDefStmts body
  | .objectLit props => noNestedDefProps props
  | .otherExpr => true
def noNestedDefMProp : MProp → Bool
  | .ident _ => true
  | .computed e => noNestedDefE e
  | .otherProp => true
def noNestedDefArgs : JArgs → Bool
  | .nil => true
  | .cons _ e tl => noNestedDefE e && noNestedDefArgs tl
def noNestedDefBody : JArrowBody → Bool
  | .expr e => noNestedDefE e
  | .block stmts => noNestedDefStmts stmts
def noNestedDefProps : JProps → Bool
  | .nil => true
  | .cons p tl => noNestedDefProp p && noNestedDefProps tl
def noNestedDefProp : JProp → Bool
  | .keyValue key value => noNestedDefPName key && noNestedDefE value
  | .otherProp => true
def noNestedDefPName : PName → Bool
  | .ident _ => true
  | .str _ => true
  | .computed e => noNestedDefE e
  | .otherName => true
def noNestedDefStmts : JStmts → Bool
  | .nil => true
  | .cons s tl => noNestedDefStmt s && noNestedDefStmts tl
def noNestedDefStmt : JStmt → Bool
  | .varDecl decls => noNestedDefDecls decls
  | .fnDecl _ body => noNestedDefStmts body
  | .exprStmt e => noNestedDefE e
  | .retStmt arg => noNestedDefE arg
  | .retNone => true
  | .otherStmt => true
def noNestedDefDecls : JDeclarators → Bool
  | .nil => true
  | .cons d tl => noNestedDefDecl d && noNestedDefDecls tl
def noNestedDefDecl : JDeclarator → Bool
  | .identInit _ init => noNestedDefE init
  | .identNoInit _ => true
  | .otherInit init => noNestedDefE init
  | .otherNoInit => true
end

mutual
/-- Whether every analyzer shape-matched call in the subtree also
satisfies the collector's registration predicate, which amounts to its
single argument being an arrow function and not a function expression. -/
def allMatchedDefE : JExpr → Bool
  | .ident _ => true
  | .strLit _ => true
  | .member obj prop => allMatchedDefE obj && allMatchedDefMProp prop
  | .call sp callee args =>
    (!(find_gql_builder_call (.call sp callee args)).isSome ||
      is_gql_definition_call (.call sp callee args)) &&
    allMatchedDefE callee && allMatchedDefArgs args
  | .arrow _ body => allMatchedDefBody body
  | .fnExpr _ body => allMatchedDefStmts body
  | .objectLit props => allMatchedDefProps props
  | .otherExpr => true
def allMatchedDefMProp : MProp → Bool
  | .ident _ => true
  | .computed e => allMatchedDefE e
  | .otherProp => true
def allMatchedDefArgs : JArgs → Bool
  | .nil => true
  | .cons _ e tl => allMatchedDefE e && allMatchedDefArgs tl
def allMatchedDefBody : JArrowBody → Bool
  | .expr e => allMatchedDefE e
  | .block stmts => allMatchedDefStmts stmts
def allMatchedDefProps : JProps → Bool
  | .nil => true
  | .cons p tl => allMatchedDefProp p && allMatchedDefProps tl
def allMatchedDefProp : JProp → Bool
  | .keyValue key value => allMatchedDefPName key && allMatchedDefE value
  | .otherProp => true
def allMatchedDefPName : PName → Bool
  | .ident _ => true
  | .str _ => true
  | .computed e => allMatchedDefE e
  | .otherName => true
def allMatchedDefStmts : JStmts → Bool
  | .nil => true
  | .cons s tl => allMatchedDefStmt s && allMatchedDefStmts tl
def allMatchedDefStmt : JStmt → Bool
  | .varDecl decls => allMatchedDefDecls decls
  | .fnDecl _ body => allMatchedDefStmts body
  | .exprStmt e => allMatchedDefE e
  | .retStmt arg => allMatchedDefE arg
  | .retNone => true
  | .otherStmt => true
def allMatchedDefDecls : JDeclarators → Bool
  | .nil => true
  | .cons d tl => allMatchedDefDecl d && allMatchedDefDecls tl
def allMatchedDefDecl : JDeclarator → Bool
  | .identInit _ init => allMatchedDefE init
  | .identNoInit _ => true
  | .otherInit init => allMatchedDefE init
  | .otherNoInit => true
end

/-- Module-level nesting freedom. -/
def noNestedDefModule (m : JModule) : Bool :=
  m.body.all (fun item =>
    match item with
    | .importDecl _ _ => true
    | .stmt s => noNestedDefStmt s
    | .otherModuleDecl => true)

/-- Module-level matched-implies-registrable. -/
def allMatchedDefModule (m : JModule) : Bool :=
  m.body.all (fun item =>
    match item with
    | .importDecl _ _ => true
    | .stmt s => allMatchedDefStmt s
    | .otherModuleDecl => true)

mutual
/-- Spans of the calls that carry a replacement directive, in the
rewriter's post-order visit order. -/
def dirSpansE (repl : Nat → Option GqlReplacement) : JExpr → List Nat
  | .ident _ => []
  | .strLit _ => []
  | .member obj prop => dirSpansE repl obj ++ dirSpansMProp repl prop
  | .call sp callee args =>
    dirSpansE repl callee ++ dirSpansArgs repl args ++
      (if (repl sp).isSome then [sp] else [])
  | .arrow _ body => dirSpansBody repl body
  | .fnExpr _ body => dirSpansStmts repl body
  | .objectLit props => dirSpansProps repl props
  | .otherExpr => []
def dirSpansMProp (repl : Nat → Option GqlReplacement) : MProp → List Nat
  | .ident _ => []
  | .computed e => dirSpansE repl e
  | .otherProp => []
def dirSpansArgs (repl : Nat → Option GqlReplacement) : JArgs → List Nat
  | .nil => []
  | .cons _ e tl => dirSpansE repl e ++ dirSpansArgs repl tl
def dirSpansBody (repl : Nat → Option GqlReplacement) : JArrowBody → List Nat
  | .expr e => dirSpansE repl e
  | .block stmts => dirSpansStmts repl stmts
def dirSpansProps (repl : Nat → Option GqlReplacement) : JProps → List Nat
  | .nil => []
  | .cons p tl => dirSpansProp repl p ++ dirSpansProps repl tl
def dirSpansProp (repl : Nat → Option GqlReplacement) : JProp → List Nat
  | .keyValue key value => dirSpansPName repl key ++ dirSpansE repl value
  | .otherProp => []
def dirSpansPName (repl : Nat → Option GqlReplacement) : PName → List Nat
  | .ident _ => []
  | .str _ => []
  | .computed e => dirSpansE repl e
  | .otherName => []
def dirSpansStmts (repl : Nat → Option GqlReplacement) : JStmts → List Nat
  | .nil => []
  | .cons s tl => dirSpansStmt repl s ++ dirSpansStmts repl tl
def dirSpansStmt (repl : Nat → Option GqlReplacement) : JStmt → List Nat
  | .varDecl decls => dirSpansDecls repl decls
  | .fnDecl _ body => dirSpansStmts repl body
  | .exprStmt e => dirSpansE repl e
  | .retStmt arg => dirSpansE repl arg
  | .retNone => []
  | .otherStmt => []
def dirSpansDecls (repl : Nat → Option GqlReplacement) : JDeclarators → List Nat
  | .nil => []
  | .cons d tl => dirSpansDecl repl d ++ dirSpansDecls repl tl
def dirSpansDecl (repl : Nat → Option GqlReplacement) : JDeclarator → List Nat
  | .identInit _ init => dirSpansE repl init
  | .identNoInit _ => []
  | .otherInit init => dirSpansE repl init
  | .otherNoInit => []
end

/-- Directive spans of one module item. -/
def dirSpansItem (repl : Nat → Option GqlReplacement) : ModuleItem → List Nat
  | .importDecl _ _ => []
  | .stmt s => dirSpansStmt repl s
  | .otherModuleDecl => []

/-- Directive spans of a module. -/
def dirSpansModule (repl : Nat → Option GqlReplacement) (m : JModule) : List Nat :=
  m.body.flatMap (dirSpansItem repl)

/-- The MissingBuilderArg diagnostic the rewriter records for a
directive-bearing call whose synthesis fails. -/
def mkDirErr (repl : Nat → Option GqlReplacement) (source_path : String) (sp : Nat) :
    PluginError :=
  match repl sp with
  | some r => PluginError.missing_builder_arg source_path
      (artifactTypeName r.artifact) "builder callback"
  | none => PluginError.missing_builder_arg source_path "" "builder callback"

/-- Whether a module item is an ESM import declaration from source s. -/
def isImportWithSrc (s : String) : ModuleItem → Bool
  | .importDecl _ src => src == s
  | _ => false

/-- Number of ESM import declarations with a given source string. -/
def countImportSrc (body : List ModuleItem) (s : String) : Nat :=
  (body.filter (isImportWithSrc s)).length

/-! ## Concrete fixtures

Small concrete modules, directives and collaborator instantiations used
by witnesses and counterexamples.
-/

/-- A builder-shaped call: gql.default with a single arrow argument whose
body is an inner call f(), at the given spans. -/
def exGqlArrowCall (sp inner : Nat) : JExpr :=
  .call sp (.member (.ident "gql") (.ident "default"))
    (.cons false (.arrow (sp + 100) (.expr (.call inner (.ident "f") .nil))) .nil)

/-- Module with three top-level declarations var a, var a, var a-dollar-1,
each initialized with a builder call. -/
def exModuleDupNames : JModule :=
  ⟨[ .stmt (.varDecl (.cons (.identInit "a" (exGqlArrowCall 1 11)) .nil)),
     .stmt (.varDecl (.cons (.identInit "a" (exGqlArrowCall 2 12)) .nil)),
     .stmt (.varDecl (.cons (.identInit "a$1" (exGqlArrowCall 3 13)) .nil)) ]⟩

/-- A builder-shaped call whose single argument is a function expression
(not an arrow): gql.default(function ()\x7b return f(); \x7d). -/
def exGqlFnCall : JExpr :=
  .call 5 (.member (.ident "gql") (.ident "default"))
    (.cons false (.fnExpr none (.cons (.retStmt (.call 15 (.ident "f") .nil)) .nil)) .nil)

/-- Module with the function-expression builder call as a statement. -/
def exModuleFnArg : JModule := ⟨[ .stmt (.exprStmt exGqlFnCall) ]⟩

/-- A builder call nested inside another builder call's arrow body. -/
def exGqlNestedCall : JExpr :=
  .call 7 (.member (.ident "gql") (.ident "default"))
    (.cons false (.arrow 17 (.expr (exGqlArrowCall 8 18))) .nil)

/-- Module with the nested builder call as a statement. -/
def exModuleNested : JModule := ⟨[ .stmt (.exprStmt exGqlNestedCall) ]⟩

/-- Module with one well-formed top-level builder definition, var a. -/
def exModuleSingle : JModule :=
  ⟨[ .stmt (.varDecl (.cons (.identInit "a" (exGqlArrowCall 1 11)) .nil)) ]⟩

/-- Artifact table holding a Model artifact for the canonical id of the
single definition of exModuleSingle under path p.ts. -/
def exArtifact : BuilderArtifact := fun cid =>
  if cid == "p.ts::a" then some (.model ⟨"User"⟩) else none

/-- A Model-kind replacement directive whose captured inner builder
arguments have no element at index 2. -/
def exDirectiveModelNoArg : GqlReplacement :=
  { canonical_id := "p.ts::a"
    artifact := .model ⟨"User"⟩
    builder_args := .cons false .otherExpr .nil }

/-- Replacement lookup mapping span 1 to the failing Model directive. -/
def exReplModelNoArg : Nat → Option GqlReplacement := fun sp =>
  if sp = 1 then some exDirectiveModelNoArg else none

/-- Module with imports from a legacy descendant, a near-miss specifier
and one plain statement. -/
def exModuleImports : JModule :=
  ⟨[ .importDecl [.named "x"] "@/legacy/foo",
     .importDecl [.named "y"] "@/legacy-other",
     .stmt (.exprStmt .otherExpr) ]⟩

/-- Parser instantiation for fixtures: recognizes one plain statement
module and one builder-call module. -/
def exParse : String → String → Except String JModule := fun _ src =>
  if src == "var x = 1;" then
    .ok ⟨[ .stmt (.varDecl (.cons (.identInit "x" .otherExpr) .nil)) ]⟩
  else if src == "const a = gql.default(() => f());" then
    .ok exModuleSingle
  else .error "unexpected source"

/-- Emitter instantiation for fixtures: a fixed rendering. -/
def exEmit : JModule → Bool → Except String EmitOutput := fun _ generate =>
  .ok { code := "emitted", source_map := if generate then some "map" else none }

/-- Artifact deserializer instantiation for fixtures. -/
def exParseArtifact : String → Except String BuilderArtifact := fun s =>
  if s == "\x7b\x7d" then .ok (fun _ => none) else .error "bad artifact"

/-- Operation serializer instantiation for fixtures. -/
def exSerialize : OperationPrebuild → Option String := fun _ => some "\x7b\x7d"

/-- Transform configuration pointing at a configured system file. -/
def exConfigStub : TransformConfig :=
  { graphql_system_aliases := ["@/graphql-system"]
    is_cjs := false
    graphql_system_path := some "src\\graphql-system.ts"
    inject_paths := []
    source_map := true }

/-- One-shot input whose path is the configured system file but whose
content is an ordinary statement module. -/
def exInputStub : TransformInput :=
  { source_code := "var x = 1;"
    source_path := "src/graphql-system.ts"
    artifact_json := "\x7b\x7d"
    config := exConfigStub }

/-- Instance-style input for the same stub path. -/
def exInputRefStub : TransformInputRef :=
  { source_code := "var x = 1;"
    source_path := "src/graphql-system.ts"
    artifact := fun _ => none
    config := exConfigStub }

/-! ## Helper lemmas on the string and list primitives -/

theorem digitVal10_digitChar10 (d : Nat) (h : d < 10) : digitVal10 (digitChar10 d) = d := by
  interval_cases d <;> rfl

theorem decOfDigits_append_digit (l : List Char) (c : Char) :
    decOfDigits (l ++ [c]) = decOfDigits l * 10 + digitVal10 c := by
  simp [decOfDigits, List.foldl_append]

theorem decOfDigits_ntdAux (f n : Nat) (h : n < 10 ^ f) : decOfDigits (ntdAux f n) = n := by
  induction f generalizing n with
  | zero =>
    have hn : n = 0 := by simpa using h
    subst hn
    rfl
  | succ f ih =>
    by_cases hlt : n < 10
    · simp [ntdAux, hlt, decOfDigits, digitVal10_digitChar10 n hlt]
    · have hdiv : n / 10 < 10 ^ f := by
        rw [Nat.div_lt_iff_lt_mul (by omega : 0 < 10)]
        calc n < 10 ^ (f + 1) := h
          _ = 10 ^ f * 10 := by ring
      simp only [ntdAux, hlt, if_false]
      rw [decOfDigits_append_digit, ih _ hdiv, digitVal10_digitChar10 _ (Nat.mod_lt n (by omega))]
      omega

theorem lt_ten_pow_succ (n : Nat) : n < 10 ^ (n + 1) := by
  rcases Nat.eq_zero_or_pos n with h | h
  · subst h; norm_num
  · calc n < 10 ^ n := Nat.lt_pow_self (by omega) n
      _ ≤ 10 ^ (n + 1) := Nat.pow_le_pow_right (by omega) (by omega)

theorem decOfDigits_natToDecimal (n : Nat) : decOfDigits (natToDecimal n).data = n := by
  have := decOfDigits_ntdAux (n + 1) n (lt_ten_pow_succ n)
  simpa [natToDecimal] using this

theorem natToDecimal_injective : Function.Injective natToDecimal := by
  intro m n h
  have hm := decOfDigits_natToDecimal m
  have hn := decOfDigits_natToDecimal n
  rw [h] at hm
  omega

theorem ntdAux_ne_nil (f n : Nat) : ntdAux (f + 1) n ≠ [] := by
  by_cases hlt : n < 10 <;> simp [ntdAux, hlt]

theorem natToDecimal_data_ne_nil (n : Nat) : (natToDecimal n).data ≠ [] := by
  simp only [natToDecimal]
  exact ntdAux_ne_nil n n

theorem strData_append (a b : String) : (a ++ b).data = a.data ++ b.data := rfl

theorem string_mk_data (s : String) : String.mk s.data = s := rfl

theorem map_backslash_id (l : List Char) (h : l.any (· == '\\') = false) :
    l.map (fun c => if c = '\\' then '/' else c) = l := by
  induction l with
  | nil => rfl
  | cons c tl ih =>
    simp only [List.any_cons, Bool.or_eq_false_iff] at h
    have hc : ¬c = '\\' := by simpa [beq_eq_false_iff_ne] using h.1
    simp [hc, ih h.2]

theorem normalizePath_of_no_backslash (p : String) (h : strContainsChar p '\\' = false) :
    normalizePath p = p := by
  have hmap := map_backslash_id p.data h
  calc normalizePath p = String.mk (p.data.map (fun c => if c = '\\' then '/' else c)) := rfl
    _ = String.mk p.data := by rw [hmap]
    _ = p := rfl

theorem alistGet_insert_self [BEq κ] [LawfulBEq κ] (m : List (κ × α)) (k : κ) (v : α) :
    alistGet (alistInsert m k v) k = some v := by
  induction m with
  | nil => simp [alistGet, alistInsert]
  | cons hd tl ih =>
    obtain ⟨k', v'⟩ := hd
    by_cases h : k' == k
    · simp [alistInsert, alistGet, h]
    · simp only [alistInsert, alistGet, h]
      simpa [Bool.not_eq_true] using ih

theorem alistGet_insert_ne [BEq κ] [LawfulBEq κ] (m : List (κ × α)) (k k' : κ) (v : α)
    (h : k ≠ k') : alistGet (alistInsert m k v) k' = alistGet m k' := by
  induction m with
  | nil => simp [alistGet, alistInsert, beq_eq_false_iff_ne.mpr h]
  | cons hd tl ih =>
    obtain ⟨k0, v0⟩ := hd
    by_cases h0 : k0 == k
    · have hk0 : k0 = k := by simpa using h0
      subst hk0
      simp [alistInsert, alistGet, h0, beq_eq_false_iff_ne.mpr h]
    · simp only [alistInsert, h0, Bool.false_eq_true, if_false, alistGet]
      by_cases h1 : k0 == k'
      · simp [alistGet, h1]
      · simp [alistGet, h1, ih]

theorem alistGet_insert_isSome [BEq κ] [LawfulBEq κ] (m : List (κ × α)) (k k' : κ) (v : α)
    (h : (alistGet m k').isSome = true) : (alistGet (alistInsert m k v) k').isSome = true := by
  by_cases hk : k = k'
  · subst hk; simp [alistGet_insert_self]
  · rw [alistGet_insert_ne m k k' v hk]; exact h

/-! ## Claim C1: canonical id format -/

/-- Claim C1, counterexample: the swc-transformer crate's
resolve_canonical_id does not perform backslash normalization, so on a
Windows-style path the computed id differs from the claimed
normalized-path format. -/
theorem claim_C1_counterexample :
    resolve_canonical_id_transformer "C:\\proj\\utils.ts" "query" ≠
      normalizePath "C:\\proj\\utils.ts" ++ "::" ++ "query" := by
  decide

/-- Claim C1 (amended): resolve_canonical_id is a pure function of the
path and scope path, hence stable across runs; the swc crate's version
equals the normalized format normalizedPath::scopePath, while the
swc-transformer crate's version equals rawPath::scopePath, so the two
versions agree exactly on paths without backslashes. -/
theorem claim_C1_canonical_id (p s : String) :
    resolve_canonical_id p s = normalizePath p ++ "::" ++ s ∧
    resolve_canonical_id_transformer p s = p ++ "::" ++ s ∧
    (strContainsChar p '\\' = false →
      resolve_canonical_id_transformer p s = resolve_canonical_id p s) := by
  refine ⟨rfl, rfl, fun h => ?_⟩
  simp [resolve_canonical_id_transformer, resolve_canonical_id,
    normalizePath_of_no_backslash p h]

/-- Witness for claim C1 at a concrete backslash-free path. -/
theorem claim_C1_canonical_id_witness :
    resolve_canonical_id_transformer "src/a.ts" "q" = resolve_canonical_id "src/a.ts" "q" :=
  (claim_C1_canonical_id "src/a.ts" "q").2.2 (by decide)

/-! ## Claim C5: stub short-circuit -/

/-- Claim C5: whenever the path-normalized source path equals the
path-normalized configured system path, both entry points bypass the
pipeline entirely (no parser, emitter, artifact deserializer or
serializer is consulted, as the quantification over them shows) and
return the fixed empty-module stub. -/
theorem claim_C5_stub_short_circuit
    (parseModule : String → String → Except String JModule)
    (emitModule : JModule → Bool → Except String EmitOutput)
    (parseArtifact : String → Except String BuilderArtifact)
    (serializeOp : OperationPrebuild → Option String)
    (input : TransformInput) (inputRef : TransformInputRef)
    (h1 : is_graphql_system_file input.source_path input.config.graphql_system_path = true)
    (h2 : is_graphql_system_file inputRef.source_path inputRef.config.graphql_system_path = true) :
    transform_source parseModule emitModule parseArtifact serializeOp input = .ok stubResult ∧
    transform_source_ref parseModule emitModule serializeOp inputRef = .ok stubResult ∧
    stubResult.output_code = "export \x7b\x7d;" := by
  refine ⟨?_, ?_, rfl⟩
  · simp [transform_source, h1]
  · simp [transform_source_ref, h2]

/-- Witness for claim C5: a concrete input whose content is an ordinary
statement module, under a configured system path that equals the source
path after normalization. -/
theorem claim_C5_stub_short_circuit_witness :
    transform_source exParse exEmit exParseArtifact exSerialize exInputStub = .ok stubResult ∧
    transform_source_ref exParse exEmit exSerialize exInputRefStub = .ok stubResult := by
  have h := claim_C5_stub_short_circuit exParse exEmit exParseArtifact exSerialize
    exInputStub exInputRefStub (by decide) (by decide)
  exact ⟨h.1, h.2.1⟩

/-! ## Claim C9: stub result fields -/

/-- Claim C9: when the stub short-circuit fires, the result is
transformed = true with an empty diagnostics list and no source map, even
when source-map generation is enabled in the configuration. -/
theorem claim_C9_stub_fields
    (parseModule : String → String → Except String JModule)
    (emitModule : JModule → Bool → Except String EmitOutput)
    (parseArtifact : String → Except String BuilderArtifact)
    (serializeOp : OperationPrebuild → Option String)
    (input : TransformInput) (inputRef : TransformInputRef)
    (h1 : is_graphql_system_file input.source_path input.config.graphql_system_path = true)
    (h2 : is_graphql_system_file inputRef.source_path inputRef.config.graphql_system_path = true)
    (hs1 : input.config.source_map = true) (hs2 : inputRef.config.source_map = true) :
    ∃ r1 r2 : TransformResult,
      transform_source parseModule emitModule parseArtifact serializeOp input = .ok r1 ∧
      transform_source_ref parseModule emitModule serializeOp inputRef = .ok r2 ∧
      r1.transformed = true ∧ r1.errors = [] ∧ r1.source_map = none ∧
      r2.transformed = true ∧ r2.errors = [] ∧ r2.source_map = none := by
  refine ⟨stubResult, stubResult, ?_, ?_, rfl, rfl, rfl, rfl, rfl, rfl⟩
  · simp [transform_source, h1]
  · simp [transform_source_ref, h2]

/-- Witness for claim C9 at the concrete stub input, whose configuration
has source_map enabled. -/
theorem claim_C9_stub_fields_witness :
    ∃ r1 r2 : TransformResult,
      transform_source exParse exEmit exParseArtifact exSerialize exInputStub = .ok r1 ∧
      transform_source_ref exParse exEmit exSerialize exInputRefStub = .ok r2 ∧
      r1.transformed = true ∧ r1.errors = [] ∧ r1.source_map = none ∧
      r2.transformed = true ∧ r2.errors = [] ∧ r2.source_map = none :=
  claim_C9_stub_fields exParse exEmit exParseArtifact exSerialize exInputStub exInputRefStub
    (by decide) (by decide) rfl rfl

/-! ## Claim C8: determinism -/

/-- Claim C8: the transform is a pure function of the input tuple
(source, path, artifact, config): under the embedding every piece of
per-run state (collector, finder, rewriter, import manager) is created
fresh inside the call and threaded explicitly, and the only map
operations the source performs are keyed gets and inserts, never
iteration-order-dependent traversals, so two invocations on equal inputs
return equal results in all four observable fields. -/
theorem claim_C8_deterministic
    (parseModule : String → String → Except String JModule)
    (emitModule : JModule → Bool → Except String EmitOutput)
    (parseArtifact : String → Except String BuilderArtifact)
    (serializeOp : OperationPrebuild → Option String)
    (i1 i2 : TransformInput) (r1 r2 : TransformInputRef)
    (hi : i1 = i2) (hr : r1 = r2) :
    transform_source parseModule emitModule parseArtifact serializeOp i1 =
      transform_source parseModule emitModule parseArtifact serializeOp i2 ∧
    transform_source_ref parseModule emitModule serializeOp r1 =
      transform_source_ref parseModule emitModule serializeOp r2 := by
  subst hi
  subst hr
  exact ⟨rfl, rfl⟩

/-- Witness for claim C8 at the concrete fixture inputs. -/
theorem claim_C8_deterministic_witness :
    transform_source exParse exEmit exParseArtifact exSerialize exInputStub =
      transform_source exParse exEmit exParseArtifact exSerialize exInputStub ∧
    transform_source_ref exParse exEmit exSerialize exInputRefStub =
      transform_source_ref exParse exEmit exSerialize exInputRefStub :=
  claim_C8_deterministic exParse exEmit exParseArtifact exSerialize
    exInputStub exInputStub exInputRefStub exInputRefStub rfl rfl

/-! ## Claim C10: registration statements in import-free bodies -/

/-- Helper: with no import declaration in the body, the insertion-index
scan never moves off zero. -/
theorem runtimeInsertPos_aux (body : List ModuleItem)
    (h : ∀ item ∈ body, item.isImport = false) :
    ∀ p i : Nat,
      (body.foldl
        (fun (acc : Nat × Nat) item =>
          (if item.isImport then acc.2 + 1 else acc.1, acc.2 + 1)) (p, i)).1 = p := by
  induction body with
  | nil => intro p i; rfl
  | cons hd tl ih =>
    intro p i
    have hhd : hd.isImport = false := h hd (by simp)
    simp only [List.foldl_cons, hhd, Bool.false_eq_true, if_false]
    exact ih (fun it hit => h it (by simp [hit])) p (i + 1)

/-- Claim C10: the statement inserter scans only ESM import declarations,
so in a body with none of them (in particular CJS output, where the
runtime binding is the synthesized require declaration, a statement item
rather than an import declaration) the pending registration statements
are spliced at index zero, ahead of the require declaration whose
CJS runtime binding the registration calls reference through the
runtime accessor. -/
theorem claim_C10_cjs_splice_at_zero (body : List ModuleItem) (calls : List JStmt)
    (hno : ∀ item ∈ body, item.isImport = false) (hne : calls ≠ []) :
    insert_runtime_calls ⟨body⟩ calls = ⟨calls.map ModuleItem.stmt ++ body⟩ ∧
    ModuleItem.isImport create_cjs_require = false ∧
    create_runtime_accessor true =
      JExpr.member (.ident CJS_RUNTIME_NAME) (.ident RUNTIME_IMPORT_NAME) := by
  refine ⟨?_, rfl, rfl⟩
  have hpos : runtimeInsertPos body = 0 := runtimeInsertPos_aux body hno 0 0
  have hemp : calls.isEmpty = false := by
    cases calls with
    | nil => exact absurd rfl hne
    | cons _ _ => rfl
  simp [insert_runtime_calls, hemp, hpos, listSpliceAt]

/-- Witness for claim C10: a CJS-shaped body holding the synthesized
require and one plain statement, with one pending registration call. -/
theorem claim_C10_cjs_splice_at_zero_witness :
    insert_runtime_calls ⟨[create_cjs_require, .stmt .otherStmt]⟩
        [.exprStmt (create_runtime_call true "composedOperation" .nil)] =
      ⟨[.stmt (.exprStmt (create_runtime_call true "composedOperation" .nil)),
        create_cjs_require, .stmt .otherStmt]⟩ := by
  have h := claim_C10_cjs_splice_at_zero [create_cjs_require, .stmt .otherStmt]
    [.exprStmt (create_runtime_call true "composedOperation" .nil)]
    (by
      intro it hit
      simp only [List.mem_cons, List.mem_singleton] at hit
      rcases hit with rfl | rfl | h0
      · rfl
      · rfl
      · exact absurd h0 (List.not_mem_nil it))
    (by simp)
  simpa using h.1

/-! ## Claim C7: legacy import stripping -/

theorem countImportSrc_append (a b : List ModuleItem) (s : String) :
    countImportSrc (a ++ b) s = countImportSrc a s + countImportSrc b s := by
  simp [countImportSrc, List.filter_append]

theorem countImportSrc_cons (item : ModuleItem) (tl : List ModuleItem) (s : String) :
    countImportSrc (item :: tl) s =
      (if isImportWithSrc s item then 1 else 0) + countImportSrc tl s := by
  by_cases h : isImportWithSrc s item <;>
    simp [countImportSrc, List.filter_cons, h] <;> omega

theorem countImportSrc_imLoop_aux (aliases : List String) (s : String) :
    ∀ (body : List ModuleItem) (st : IMState),
      countImportSrc (body.foldl (imStep aliases) st).newBody s =
        countImportSrc st.newBody s +
          (if is_graphql_system_import aliases s then 0 else countImportSrc body s) := by
  intro body
  induction body with
  | nil => intro st; simp [countImportSrc]
  | cons hd tl ih =>
    intro st
    rw [List.foldl_cons, ih, countImportSrc_cons]
    have hstep : countImportSrc (imStep aliases st hd).newBody s =
        countImportSrc st.newBody s +
          (if is_graphql_system_import aliases s then 0
           else if isImportWithSrc s hd then 1 else 0) := by
      cases hd with
      | importDecl specs src =>
        by_cases hm : is_graphql_system_import aliases src
        · have hpred : (if is_graphql_system_import aliases s then 0
              else if isImportWithSrc s (.importDecl specs src) then 1 else 0) = 0 := by
            by_cases hms : is_graphql_system_import aliases s
            · simp [hms]
            · have : (src == s) = false := by
                by_contra hb
                simp only [Bool.not_eq_false, beq_iff_eq] at hb
                subst hb
                exact hms hm
              simp [hms, isImportWithSrc, this]
          rw [hpred]
          simp [imStep, hm]
        · have hkeep : (imStep aliases st (.importDecl specs src)).newBody =
              (if src == RUNTIME_MODULE then
                { st with existingRuntimeImportIdx := some st.newBody.length }
               else st).newBody ++ [.importDecl specs src] := by
            simp only [imStep, hm, Bool.false_eq_true, if_false]
          have hsame : (if src == RUNTIME_MODULE then
              { st with existingRuntimeImportIdx := some st.newBody.length }
             else st).newBody = st.newBody := by
            by_cases hr : src == RUNTIME_MODULE <;> simp [hr]
          rw [hkeep, hsame, countImportSrc_append]
          by_cases hms : is_graphql_system_import aliases s
          · have : (src == s) = false := by
              by_contra hb
              simp only [Bool.not_eq_false, beq_iff_eq] at hb
              subst hb
              exact hm hms
            simp [hms, countImportSrc, List.filter_cons, isImportWithSrc, this]
          · simp only [hms, if_false, countImportSrc_append]
            have : countImportSrc [ModuleItem.importDecl specs src] s =
                if src = s then 1 else 0 := by
              by_cases hx : src = s <;>
                simp [countImportSrc, List.filter_cons, isImportWithSrc, hx]
            rw [this]
            by_cases hx : src = s <;>
              simp [countImportSrc, List.filter_cons, isImportWithSrc, hx] <;> omega
      | stmt s0 =>
        have hpred : isImportWithSrc s (.stmt s0) = false := rfl
        rw [hpred]
        cases s0 with
        | varDecl decls =>
          by_cases hz : declsLen (filterRequireDecls aliases decls) = 0
          · simp [imStep, hz]
          · by_cases hlt : declsLen (filterRequireDecls aliases decls) < declsLen decls <;>
              · simp only [imStep, hz, hlt, Bool.false_eq_true, if_false, if_true]
                split <;>
                  simp [countImportSrc_append, countImportSrc, List.filter_cons, isImportWithSrc]
        | fnDecl name b =>
          simp only [imStep]
          split <;>
            simp [countImportSrc_append, countImportSrc, List.filter_cons, isImportWithSrc]
        | exprStmt e =>
          simp only [imStep]
          split <;>
            simp [countImportSrc_append, countImportSrc, List.filter_cons, isImportWithSrc]
        | retStmt a =>
          simp only [imStep]
          split <;>
            simp [countImportSrc_append, countImportSrc, List.filter_cons, isImportWithSrc]
        | retNone =>
          simp only [imStep]
          split <;>
            simp [countImportSrc_append, countImportSrc, List.filter_cons, isImportWithSrc]
        | otherStmt =>
          simp only [imStep]
          split <;>
            simp [countImportSrc_append, countImportSrc, List.filter_cons, isImportWithSrc]
      | otherModuleDecl =>
        simp only [imStep]
        split <;>
          simp [countImportSrc_append, countImportSrc, List.filter_cons, isImportWithSrc]
    rw [hstep]
    by_cases hms : is_graphql_system_import aliases s <;> simp [hms] <;> omega

theorem countImportSrc_set_same (s : String) :
    ∀ (body : List ModuleItem) (idx : Nat) (x y : ModuleItem),
      body.get? idx = some y → isImportWithSrc s x = isImportWithSrc s y →
      countImportSrc (body.set idx x) s = countImportSrc body s := by
  intro body
  induction body with
  | nil => intro idx x y hget _; simp at hget
  | cons hd tl ih =>
    intro idx x y hget hpred
    cases idx with
    | zero =>
      simp only [List.get?_cons_zero, Option.some.injEq] at hget
      subst hget
      simp [List.set, countImportSrc_cons, hpred]
    | succ n =>
      simp only [List.get?_cons_succ] at hget
      simp [List.set, countImportSrc_cons, ih n x y hget hpred]

theorem countImportSrc_mergeRuntime (body : List ModuleItem) (idx : Nat) (s : String) :
    countImportSrc (mergeRuntimeSpecifier body idx) s = countImportSrc body s := by
  unfold mergeRuntimeSpecifier
  cases hget : body.get? idx with
  | none => rfl
  | some y =>
    cases y with
    | importDecl specs src =>
      exact countImportSrc_set_same s body idx _ _ hget rfl
    | stmt s0 => rfl
    | otherModuleDecl => rfl

theorem countImportSrc_insertAt (body : List ModuleItem) (i : Nat) (x : ModuleItem) (s : String) :
    countImportSrc (listInsertAt body i x) s =
      countImportSrc body s + (if isImportWithSrc s x then 1 else 0) := by
  have h1 : countImportSrc (body.take i) s + countImportSrc (body.drop i) s
      = countImportSrc body s := by
    rw [← countImportSrc_append, List.take_append_drop]
  rw [listInsertAt, countImportSrc_append, countImportSrc_append]
  have h2 : countImportSrc [x] s = if isImportWithSrc s x then 1 else 0 := by
    by_cases hx : isImportWithSrc s x <;> simp [countImportSrc, List.filter_cons, hx]
  omega

/-- Claim C7: for every configured alias list, an ESM import declaration
is dropped by the import manager exactly when its source equals an alias
or extends one across a slash boundary: counting imports by source, any
source other than the runtime module itself survives the pass unchanged
when it matches no alias and disappears when it matches one; under alias
at-slash-legacy the descendant specifier matches while the dash variant
does not. -/
theorem claim_C7_legacy_import_stripping (needs_runtime_import is_cjs : Bool)
    (aliases : List String) (m : JModule) (s : String) (hs : s ≠ RUNTIME_MODULE) :
    countImportSrc (importManagerPass needs_runtime_import is_cjs aliases m).body s =
      (if is_graphql_system_import aliases s then 0 else countImportSrc m.body s) ∧
    is_graphql_system_import ["@/legacy"] "@/legacy/foo" = true ∧
    is_graphql_system_import ["@/legacy"] "@/legacy-other" = false := by
  refine ⟨?_, by decide, by decide⟩
  have hloop : countImportSrc (imLoop aliases m.body).newBody s =
      (if is_graphql_system_import aliases s then 0 else countImportSrc m.body s) := by
    have h := countImportSrc_imLoop_aux aliases s m.body
      ⟨[], 0, false, none⟩
    simpa [imLoop, countImportSrc] using h
  have hx : isImportWithSrc s (if is_cjs then create_cjs_require else create_esm_import)
      = false := by
    cases is_cjs with
    | false =>
      have : (RUNTIME_MODULE == s) = false := beq_eq_false_iff_ne.mpr (Ne.symm hs)
      simp [create_esm_import, isImportWithSrc, this]
    | true => rfl
  unfold importManagerPass
  cases needs_runtime_import with
  | false => exact hloop
  | true =>
    simp only [if_true]
    split
    · split
      · rw [countImportSrc_mergeRuntime]; exact hloop
      · rw [countImportSrc_insertAt, hx]
        simpa using hloop
    · exact hloop

/-- Witness for claim C7 on the concrete module with a legacy
descendant import, a near-miss import and one statement. -/
theorem claim_C7_legacy_import_stripping_witness :
    countImportSrc (importManagerPass false false ["@/legacy"] exModuleImports).body
        "@/legacy/foo" = 0 ∧
    countImportSrc (importManagerPass false false ["@/legacy"] exModuleImports).body
        "@/legacy-other" = 1 := by
  have h1 := (claim_C7_legacy_import_stripping false false ["@/legacy"] exModuleImports
    "@/legacy/foo" (by decide)).1
  have h2 := (claim_C7_legacy_import_stripping false false ["@/legacy"] exModuleImports
    "@/legacy-other" (by decide)).1
  rw [h1, h2]
  exact ⟨by decide, by decide⟩

/-! ## Claim C4: no-op idempotence -/

mutual
theorem finder_nm_E (a : BuilderArtifact) (md : MetadataMap) (p : String) :
    ∀ e : JExpr, matchedSpansE e = [] → ∀ st, finderExpr a md p st e = st
  | .ident _ => by intro _ st; rfl
  | .strLit _ => by intro _ st; rfl
  | .member obj prop => by
    intro h st
    simp only [matchedSpansE, List.append_eq_nil] at h
    simp [finderExpr, finder_nm_E a md p obj h.1, finder_nm_MP a md p prop h.2]
  | .call sp callee args => by
    intro h st
    simp only [matchedSpansE, List.append_eq_nil] at h
    obtain ⟨⟨hif, hc⟩, ha⟩ := h
    cases hf : find_gql_builder_call (.call sp callee args) with
    | some b => simp [hf] at hif
    | none =>
      simp [finderExpr, process_call, hf, finder_nm_E a md p callee hc,
        finder_nm_Args a md p args ha]
  | .arrow sp body => by
    intro h st
    simp only [matchedSpansE] at h
    simp [finderExpr, finder_nm_Body a md p body h]
  | .fnExpr name body => by
    intro h st
    simp only [matchedSpansE] at h
    simp [finderExpr, finder_nm_Stmts a md p body h]
  | .objectLit props => by
    intro h st
    simp only [matchedSpansE] at h
    simp [finderExpr, finder_nm_Props a md p props h]
  | .otherExpr => by intro _ st; rfl
theorem finder_nm_MP (a : BuilderArtifact) (md : MetadataMap) (p : String) :
    ∀ x : MProp, matchedSpansMProp x = [] → ∀ st, finderMProp a md p st x = st
  | .ident _ => by intro _ st; rfl
  | .computed e => by
    intro h st
    simp only [matchedSpansMProp] at h
    simp [finderMProp, finder_nm_E a md p e h]
  | .otherProp => by intro _ st; rfl
theorem finder_nm_Args (a : BuilderArtifact) (md : MetadataMap) (p : String) :
    ∀ x : JArgs, matchedSpansArgs x = [] → ∀ st, finderArgs a md p st x = st
  | .nil => by intro _ st; rfl
  | .cons sp e tl => by
    intro h st
    simp only [matchedSpansArgs, List.append_eq_nil] at h
    simp [finderArgs, finder_nm_E a md p e h.1, finder_nm_Args a md p tl h.2]
theorem finder_nm_Body (a : BuilderArtifact) (md : MetadataMap) (p : String) :
    ∀ x : JArrowBody, matchedSpansBody x = [] → ∀ st, finderArrowBody a md p st x = st
  | .expr e => by
    intro h st
    simp only [matchedSpansBody] at h
    simp [finderArrowBody, finder_nm_E a md p e h]
  | .block stmts => by
    intro h st
    simp only [matchedSpansBody] at h
    simp [finderArrowBody, finder_nm_Stmts a md p stmts h]
theorem finder_nm_Props (a : BuilderArtifact) (md : MetadataMap) (p : String) :
    ∀ x : JProps, matchedSpansProps x = [] → ∀ st, finderProps a md p st x = st
  | .nil => by intro _ st; rfl
  | .cons pr tl => by
    intro h st
    simp only [matchedSpansProps, List.append_eq_nil] at h
    simp [finderProps, finder_nm_Prop a md p pr h.1, finder_nm_Props a md p tl h.2]
theorem finder_nm_Prop (a : BuilderArtifact) (md : MetadataMap) (p : String) :
    ∀ x : JProp, matchedSpansProp x = [] → ∀ st, finderProp a md p st x = st
  | .keyValue key value => by
    intro h st
    simp only [matchedSpansProp, List.append_eq_nil] at h
    simp [finderProp, finder_nm_PN a md p key h.1, finder_nm_E a md p value h.2]
  | .otherProp => by intro _ st; rfl
theorem finder_nm_PN (a : BuilderArtifact) (md : MetadataMap) (p : String) :
    ∀ x : PName, matchedSpansPName x = [] → ∀ st, finderPName a md p st x = st
  | .ident _ => by intro _ st; rfl
  | .str _ => by intro _ st; rfl
  | .computed e => by
    intro h st
    simp only [matchedSpansPName] at h
    simp [finderPName, finder_nm_E a md p e h]
  | .otherName => by intro _ st; rfl
theorem finder_nm_Stmts (a : BuilderArtifact) (md : MetadataMap) (p : String) :
    ∀ x : JStmts, matchedSpansStmts x = [] → ∀ st, finderStmts a md p st x = st
  | .nil => by intro _ st; rfl
  | .cons s tl => by
    intro h st
    simp only [matchedSpansStmts, List.append_eq_nil] at h
    simp [finderStmts, finder_nm_Stmt a md p s h.1, finder_nm_Stmts a md p tl h.2]
theorem finder_nm_Stmt (a : BuilderArtifact) (md : MetadataMap) (p : String) :
    ∀ x : JStmt, matchedSpansStmt x = [] → ∀ st, finderStmt a md p st x = st
  | .varDecl decls => by
    intro h st
    simp only [matchedSpansStmt] at h
    simp [finderStmt, finder_nm_Decls a md p decls h]
  | .fnDecl name body => by
    intro h st
    simp only [matchedSpansStmt] at h
    simp [finderStmt, finder_nm_Stmts a md p body h]
  | .exprStmt e => by
    intro h st
    simp only [matchedSpansStmt] at h
    simp [finderStmt, finder_nm_E a md p e h]
  | .retStmt arg => by
    intro h st
    simp only [matchedSpansStmt] at h
    simp [finderStmt, finder_nm_E a md p arg h]
  | .retNone => by intro _ st; rfl
  | .otherStmt => by intro _ st; rfl
theorem finder_nm_Decls (a : BuilderArtifact) (md : MetadataMap) (p : String) :
    ∀ x : JDeclarators, matchedSpansDecls x = [] → ∀ st, finderDecls a md p st x = st
  | .nil => by intro _ st; rfl
  | .cons d tl => by
    intro h st
    simp only [matchedSpansDecls, List.append_eq_nil] at h
    simp [finderDecls, finder_nm_Decl a md p d h.1, finder_nm_Decls a md p tl h.2]
theorem finder_nm_Decl (a : BuilderArtifact) (md : MetadataMap) (p : String) :
    ∀ x : JDeclarator, matchedSpansDecl x = [] → ∀ st, finderDeclarator a md p st x = st
  | .identInit name init => by
    intro h st
    simp only [matchedSpansDecl] at h
    simp [finderDeclarator, finder_nm_E a md p init h]
  | .identNoInit _ => by intro _ st; rfl
  | .otherInit init => by
    intro h st
    simp only [matchedSpansDecl] at h
    simp [finderDeclarator, finder_nm_E a md p init h]
  | .otherNoInit => by intro _ st; rfl
end

theorem runFinder_no_match (a : BuilderArtifact) (md : MetadataMap) (p : String)
    (m : JModule) (h : matchedSpansModule m = []) :
    runFinder a md p m = { replacements := [], has_transforms := false, errors := [] } := by
  unfold runFinder
  suffices hgen : ∀ (body : List ModuleItem) (st : FinderState),
      body.flatMap matchedSpansItem = [] →
      body.foldl (finderModuleItem a md p) st = st by
    exact hgen m.body _ h
  intro body
  induction body with
  | nil => intro st _; rfl
  | cons hd tl ih =>
    intro st hnil
    simp only [List.flatMap_cons, List.append_eq_nil] at hnil
    have hhd : finderModuleItem a md p st hd = st := by
      cases hd with
      | importDecl specs src => rfl
      | stmt s => exact finder_nm_Stmt a md p s hnil.1 st
      | otherModuleDecl => rfl
    rw [List.foldl_cons, hhd, ih st hnil.2]

/-- Claim C4 (amended): for every input that does not hit the stub
short-circuit, whose artifact deserializes and whose parsed module
contains zero builder-shaped calls, both entry points return the input
source unchanged with transformed = false, no diagnostics and no source
map. The stub short-circuit exception is forced by the counterexample. -/
theorem claim_C4_noop_unchanged
    (parseModule : String → String → Except String JModule)
    (emitModule : JModule → Bool → Except String EmitOutput)
    (parseArtifact : String → Except String BuilderArtifact)
    (serializeOp : OperationPrebuild → Option String)
    (input : TransformInput) (inputRef : TransformInputRef)
    (art : BuilderArtifact) (m mr : JModule)
    (hstub : is_graphql_system_file input.source_path input.config.graphql_system_path = false)
    (hstubr : is_graphql_system_file inputRef.source_path inputRef.config.graphql_system_path
      = false)
    (hart : parseArtifact input.artifact_json = .ok art)
    (hparse : parseModule input.source_path input.source_code = .ok m)
    (hparser : parseModule inputRef.source_path inputRef.source_code = .ok mr)
    (hmatch : matchedSpansModule m = [])
    (hmatchr : matchedSpansModule mr = []) :
    transform_source parseModule emitModule parseArtifact serializeOp input =
      .ok { output_code := input.source_code, transformed := false,
            errors := [], source_map := none } ∧
    transform_source_ref parseModule emitModule serializeOp inputRef =
      .ok { output_code := inputRef.source_code, transformed := false,
            errors := [], source_map := none } := by
  constructor
  · unfold transform_source
    rw [hstub]
    simp only [Bool.false_eq_true, if_false, hart, hparse]
    unfold transformPipeline
    simp [runFinder_no_match art (MetadataCollector.collect m input.source_path)
      input.source_path m hmatch]
  · unfold transform_source_ref
    rw [hstubr]
    simp only [Bool.false_eq_true, if_false, hparser]
    unfold transformPipeline
    simp [runFinder_no_match inputRef.artifact
      (MetadataCollector.collect mr inputRef.source_path) inputRef.source_path mr hmatchr]

/-- Claim C4, counterexample: an input whose parsed module has zero
builder-shaped calls but whose path equals the configured system path
returns the stub, not the input: output differs from the source and
transformed is true, so the claim fails without a stub exception. -/
theorem claim_C4_counterexample :
    exParse exInputStub.source_path exInputStub.source_code =
      .ok ⟨[ .stmt (.varDecl (.cons (.identInit "x" .otherExpr) .nil)) ]⟩ ∧
    matchedSpansModule ⟨[ .stmt (.varDecl (.cons (.identInit "x" .otherExpr) .nil)) ]⟩ = [] ∧
    transform_source exParse exEmit exParseArtifact exSerialize exInputStub = .ok stubResult ∧
    stubResult.output_code ≠ exInputStub.source_code ∧
    stubResult.transformed = true := by
  refine ⟨rfl, rfl, rfl, by decide, rfl⟩

/-- Witness for claim C4 at a concrete no-op input away from the stub path. -/
theorem claim_C4_noop_unchanged_witness :
    transform_source exParse exEmit exParseArtifact exSerialize
      { source_code := "var x = 1;", source_path := "src/app.ts",
        artifact_json := "\x7b\x7d", config := exConfigStub } =
      .ok { output_code := "var x = 1;", transformed := false,
            errors := [], source_map := none } ∧
    transform_source_ref exParse exEmit exSerialize
      { source_code := "var x = 1;", source_path := "src/app.ts",
        artifact := fun _ => none, config := exConfigStub } =
      .ok { output_code := "var x = 1;", transformed := false,
            errors := [], source_map := none } :=
  claim_C4_noop_unchanged exParse exEmit exParseArtifact exSerialize _ _
    (fun _ => none) ⟨[ .stmt (.varDecl (.cons (.identInit "x" .otherExpr) .nil)) ]⟩
    ⟨[ .stmt (.varDecl (.cons (.identInit "x" .otherExpr) .nil)) ]⟩
    (by decide) (by decide) rfl rfl rfl rfl rfl

/-! ## Claim C3: Model-kind synthesis failure -/

theorem list_isEmpty_append (a b : List α) : (a ++ b).isEmpty = (a.isEmpty && b.isEmpty) := by
  cases a <;> cases b <;> rfl

mutual
theorem tf_fail_E (repl : Nat → Option GqlReplacement) (is_cjs : Bool)
    (serializeOp : OperationPrebuild → Option String) (p : String)
    (hfail : ∀ sp r, repl sp = some r → build_replacement is_cjs serializeOp r = none) :
    ∀ (e : JExpr) (st : TransformerState),
      transformExpr repl is_cjs serializeOp p st e =
        (e, { needs_runtime := st.needs_runtime || !(dirSpansE repl e).isEmpty,
              runtime_calls := st.runtime_calls,
              errors := st.errors ++ (dirSpansE repl e).map (mkDirErr repl p) })
  | .ident s => by intro st; simp [transformExpr, dirSpansE]
  | .strLit v => by intro st; simp [transformExpr, dirSpansE]
  | .member obj prop => by
    intro st
    simp [transformExpr, tf_fail_E repl is_cjs serializeOp p hfail obj,
      tf_fail_MP repl is_cjs serializeOp p hfail prop, dirSpansE,
      list_isEmpty_append, Bool.or_assoc]
  | .call sp callee args => by
    intro st
    simp only [transformExpr, tf_fail_E repl is_cjs serializeOp p hfail callee,
      tf_fail_Args repl is_cjs serializeOp p hfail args]
    cases hrep : repl sp with
    | none =>
      simp [applyReplacement, hrep, dirSpansE, list_isEmpty_append, Bool.or_assoc]
    | some r =>
      have hb := hfail sp r hrep
      simp [applyReplacement, hrep, hb, dirSpansE, mkDirErr,
        list_isEmpty_append, Bool.or_assoc]
  | .arrow sp body => by
    intro st
    simp [transformExpr, tf_fail_Body repl is_cjs serializeOp p hfail body, dirSpansE]
  | .fnExpr name body => by
    intro st
    simp [transformExpr, tf_fail_Stmts repl is_cjs serializeOp p hfail body, dirSpansE]
  | .objectLit props => by
    intro st
    simp [transformExpr, tf_fail_Props repl is_cjs serializeOp p hfail props, dirSpansE]
  | .otherExpr => by intro st; simp [transformExpr, dirSpansE]
theorem tf_fail_MP (repl : Nat → Option GqlReplacement) (is_cjs : Bool)
    (serializeOp : OperationPrebuild → Option String) (p : String)
    (hfail : ∀ sp r, repl sp = some r → build_replacement is_cjs serializeOp r = none) :
    ∀ (x : MProp) (st : TransformerState),
      transformMProp repl is_cjs serializeOp p st x =
        (x, { needs_runtime := st.needs_runtime || !(dirSpansMProp repl x).isEmpty,
              runtime_calls := st.runtime_calls,
              errors := st.errors ++ (dirSpansMProp repl x).map (mkDirErr repl p) })
  | .ident s => by intro st; simp [transformMProp, dirSpansMProp]
  | .computed e => by
    intro st
    simp [transformMProp, tf_fail_E repl is_cjs serializeOp p hfail e, dirSpansMProp]
  | .otherProp => by intro st; simp [transformMProp, dirSpansMProp]
theorem tf_fail_Args (repl : Nat → Option GqlReplacement) (is_cjs : Bool)
    (serializeOp : OperationPrebuild → Option String) (p : String)
    (hfail : ∀ sp r, repl sp = some r → build_replacement is_cjs serializeOp r = none) :
    ∀ (x : JArgs) (st : TransformerState),
      transformArgs repl is_cjs serializeOp p st x =
        (x, { needs_runtime := st.needs_runtime || !(dirSpansArgs repl x).isEmpty,
              runtime_calls := st.runtime_calls,
              errors := st.errors ++ (dirSpansArgs repl x).map (mkDirErr repl p) })
  | .nil => by intro st; simp [transformArgs, dirSpansArgs]
  | .cons sp e tl => by
    intro st
    simp [transformArgs, tf_fail_E repl is_cjs serializeOp p hfail e,
      tf_fail_Args repl is_cjs serializeOp p hfail tl, dirSpansArgs,
      list_isEmpty_append, Bool.or_assoc]
theorem tf_fail_Body (repl : Nat → Option GqlReplacement) (is_cjs : Bool)
    (serializeOp : OperationPrebuild → Option String) (p : String)
    (hfail : ∀ sp r, repl sp = some r → build_replacement is_cjs serializeOp r = none) :
    ∀ (x : JArrowBody) (st : TransformerState),
      transformArrowBody repl is_cjs serializeOp p st x =
        (x, { needs_runtime := st.needs_runtime || !(dirSpansBody repl x).isEmpty,
              runtime_calls := st.runtime_calls,
              errors := st.errors ++ (dirSpansBody repl x).map (mkDirErr repl p) })
  | .expr e => by
    intro st
    simp [transformArrowBody, tf_fail_E repl is_cjs serializeOp p hfail e, dirSpansBody]
  | .block stmts => by
    intro st
    simp [transformArrowBody, tf_fail_Stmts repl is_cjs serializeOp p hfail stmts, dirSpansBody]
theorem tf_fail_Props (repl : Nat → Option GqlReplacement) (is_cjs : Bool)
    (serializeOp : OperationPrebuild → Option String) (p : String)
    (hfail : ∀ sp r, repl sp = some r → build_replacement is_cjs serializeOp r = none) :
    ∀ (x : JProps) (st : TransformerState),
      transformProps repl is_cjs serializeOp p st x =
        (x, { needs_runtime := st.needs_runtime || !(dirSpansProps repl x).isEmpty,
              runtime_calls := st.runtime_calls,
              errors := st.errors ++ (dirSpansProps repl x).map (mkDirErr repl p) })
  | .nil => by intro st; simp [transformProps, dirSpansProps]
  | .cons pr tl => by
    intro st
    simp [transformProps, tf_fail_Prop repl is_cjs serializeOp p hfail pr,
      tf_fail_Props repl is_cjs serializeOp p hfail tl, dirSpansProps,
      list_isEmpty_append, Bool.or_assoc]
theorem tf_fail_Prop (repl : Nat → Option GqlReplacement) (is_cjs : Bool)
    (serializeOp : OperationPrebuild → Option String) (p : String)
    (hfail : ∀ sp r, repl sp = some r → build_replacement is_cjs serializeOp r = none) :
    ∀ (x : JProp) (st : TransformerState),
      transformProp repl is_cjs serializeOp p st x =
        (x, { needs_runtime := st.needs_runtime || !(dirSpansProp repl x).isEmpty,
              runtime_calls := st.runtime_calls,
              errors := st.errors ++ (dirSpansProp repl x).map (mkDirErr repl p) })
  | .keyValue key value => by
    intro st
    simp [transformProp, tf_fail_PN repl is_cjs serializeOp p hfail key,
      tf_fail_E repl is_cjs serializeOp p hfail value, dirSpansProp,
      list_isEmpty_append, Bool.or_assoc]
  | .otherProp => by intro st; simp [transformProp, dirSpansProp]
theorem tf_fail_PN (repl : Nat → Option GqlReplacement) (is_cjs : Bool)
    (serializeOp : OperationPrebuild → Option String) (p : String)
    (hfail : ∀ sp r, repl sp = some r → build_replacement is_cjs serializeOp r = none) :
    ∀ (x : PName) (st : TransformerState),
      transformPName repl is_cjs serializeOp p st x =
        (x, { needs_runtime := st.needs_runtime || !(dirSpansPName repl x).isEmpty,
              runtime_calls := st.runtime_calls,
              errors := st.errors ++ (dirSpansPName repl x).map (mkDirErr repl p) })
  | .ident s => by intro st; simp [transformPName, dirSpansPName]
  | .str s => by intro st; simp [transformPName, dirSpansPName]
  | .computed e => by
    intro st
    simp [transformPName, tf_fail_E repl is_cjs serializeOp p hfail e, dirSpansPName]
  | .otherName => by intro st; simp [transformPName, dirSpansPName]
theorem tf_fail_Stmts (repl : Nat → Option GqlReplacement) (is_cjs : Bool)
    (serializeOp : OperationPrebuild → Option String) (p : String)
    (hfail : ∀ sp r, repl sp = some r → build_replacement is_cjs serializeOp r = none) :
    ∀ (x : JStmts) (st : TransformerState),
      transformStmts repl is_cjs serializeOp p st x =
        (x, { needs_runtime := st.needs_runtime || !(dirSpansStmts repl x).isEmpty,
              runtime_calls := st.runtime_calls,
              errors := st.errors ++ (dirSpansStmts repl x).map (mkDirErr repl p) })
  | .nil => by intro st; simp [transformStmts, dirSpansStmts]
  | .cons s tl => by
    intro st
    simp [transformStmts, tf_fail_Stmt repl is_cjs serializeOp p hfail s,
      tf_fail_Stmts repl is_cjs serializeOp p hfail tl, dirSpansStmts,
      list_isEmpty_append, Bool.or_assoc]
theorem tf_fail_Stmt (repl : Nat → Option GqlReplacement) (is_cjs : Bool)
    (serializeOp : OperationPrebuild → Option String) (p : String)
    (hfail : ∀ sp r, repl sp = some r → build_replacement is_cjs serializeOp r = none) :
    ∀ (x : JStmt) (st : TransformerState),
      transformStmt repl is_cjs serializeOp p st x =
        (x, { needs_runtime := st.needs_runtime || !(dirSpansStmt repl x).isEmpty,
              runtime_calls := st.runtime_calls,
              errors := st.errors ++ (dirSpansStmt repl x).map (mkDirErr repl p) })
  | .varDecl decls => by
    intro st
    simp [transformStmt, tf_fail_Decls repl is_cjs serializeOp p hfail decls, dirSpansStmt]
  | .fnDecl name body => by
    intro st
    simp [transformStmt, tf_fail_Stmts repl is_cjs serializeOp p hfail body, dirSpansStmt]
  | .exprStmt e => by
    intro st
    simp [transformStmt, tf_fail_E repl is_cjs serializeOp p hfail e, dirSpansStmt]
  | .retStmt arg => by
    intro st
    simp [transformStmt, tf_fail_E repl is_cjs serializeOp p hfail arg, dirSpansStmt]
  | .retNone => by intro st; simp [transformStmt, dirSpansStmt]
  | .otherStmt => by intro st; simp [transformStmt, dirSpansStmt]
theorem tf_fail_Decls (repl : Nat → Option GqlReplacement) (is_cjs : Bool)
    (serializeOp : OperationPrebuild → Option String) (p : String)
    (hfail : ∀ sp r, repl sp = some r → build_replacement is_cjs serializeOp r = none) :
    ∀ (x : JDeclarators) (st : TransformerState),
      transformDecls repl is_cjs serializeOp p st x =
        (x, { needs_runtime := st.needs_runtime || !(dirSpansDecls repl x).isEmpty,
              runtime_calls := st.runtime_calls,
              errors := st.errors ++ (dirSpansDecls repl x).map (mkDirErr repl p) })
  | .nil => by intro st; simp [transformDecls, dirSpansDecls]
  | .cons d tl => by
    intro st
    simp [transformDecls, tf_fail_Decl repl is_cjs serializeOp p hfail d,
      tf_fail_Decls repl is_cjs serializeOp p hfail tl, dirSpansDecls,
      list_isEmpty_append, Bool.or_assoc]
theorem tf_fail_Decl (repl : Nat → Option GqlReplacement) (is_cjs : Bool)
    (serializeOp : OperationPrebuild → Option String) (p : String)
    (hfail : ∀ sp r, repl sp = some r → build_replacement is_cjs serializeOp r = none) :
    ∀ (x : JDeclarator) (st : TransformerState),
      transformDeclarator repl is_cjs serializeOp p st x =
        (x, { needs_runtime := st.needs_runtime || !(dirSpansDecl repl x).isEmpty,
              runtime_calls := st.runtime_calls,
              errors := st.errors ++ (dirSpansDecl repl x).map (mkDirErr repl p) })
  | .identInit name init => by
    intro st
    simp [transformDeclarator, tf_fail_E repl is_cjs serializeOp p hfail init, dirSpansDecl]
  | .identNoInit name => by intro st; simp [transformDeclarator, dirSpansDecl]
  | .otherInit init => by
    intro st
    simp [transformDeclarator, tf_fail_E repl is_cjs serializeOp p hfail init, dirSpansDecl]
  | .otherNoInit => by intro st; simp [transformDeclarator, dirSpansDecl]
end

theorem runTransformer_all_fail (repl : Nat → Option GqlReplacement) (is_cjs : Bool)
    (serializeOp : OperationPrebuild → Option String) (p : String) (m : JModule)
    (hfail : ∀ sp r, repl sp = some r → build_replacement is_cjs serializeOp r = none) :
    runTransformer repl is_cjs serializeOp p m =
      (m, { needs_runtime := !(dirSpansModule repl m).isEmpty,
            runtime_calls := [],
            errors := (dirSpansModule repl m).map (mkDirErr repl p) }) := by
  unfold runTransformer
  suffices hgen : ∀ (body : List ModuleItem) (acc : List ModuleItem) (st : TransformerState),
      body.foldl
        (fun (a : List ModuleItem × TransformerState) item =>
          match transformModuleItem repl is_cjs serializeOp p a.2 item with
          | (item', st') => (a.1 ++ [item'], st'))
        (acc, st) =
      (acc ++ body,
        { needs_runtime := st.needs_runtime || !(body.flatMap (dirSpansItem repl)).isEmpty,
          runtime_calls := st.runtime_calls,
          errors := st.errors ++ (body.flatMap (dirSpansItem repl)).map (mkDirErr repl p) }) by
    rw [hgen m.body [] { needs_runtime := false, runtime_calls := [], errors := [] }]
    simp [dirSpansModule]
  intro body
  induction body with
  | nil => intro acc st; simp
  | cons hd tl ih =>
    intro acc st
    have hitem : transformModuleItem repl is_cjs serializeOp p st hd =
        (hd, { needs_runtime := st.needs_runtime || !(dirSpansItem repl hd).isEmpty,
               runtime_calls := st.runtime_calls,
               errors := st.errors ++ (dirSpansItem repl hd).map (mkDirErr repl p) }) := by
      cases hd with
      | importDecl specs src => simp [transformModuleItem, dirSpansItem]
      | stmt s =>
        simp [transformModuleItem, tf_fail_Stmt repl is_cjs serializeOp p hfail s, dirSpansItem]
      | otherModuleDecl => simp [transformModuleItem, dirSpansItem]
    rw [List.foldl_cons]
    simp only [hitem]
    rw [ih]
    simp [list_isEmpty_append, Bool.or_assoc]

/-- Claim C3: when the only replacement directive of a module is a
Model-kind directive whose captured inner builder arguments have no
element at index 2, the rewriter returns the module unchanged, defers no
registration statement, and records exactly one MissingBuilderArg
diagnostic for that call site (while still flagging the runtime import
as needed, which the source sets before attempting synthesis). -/
theorem claim_C3_model_missing_arg (repl : Nat → Option GqlReplacement) (is_cjs : Bool)
    (serializeOp : OperationPrebuild → Option String) (p : String) (m : JModule)
    (s0 : Nat) (r0 : GqlReplacement) (pb : ModelPrebuild)
    (hrepl0 : repl s0 = some r0)
    (hother : ∀ sp, sp ≠ s0 → repl sp = none)
    (hmodel : r0.artifact = .model pb)
    (hnoarg : argsGet r0.builder_args 2 = none)
    (hone : dirSpansModule repl m = [s0]) :
    runTransformer repl is_cjs serializeOp p m =
      (m, { needs_runtime := true, runtime_calls := [],
            errors := [PluginError.missing_builder_arg p "model" "builder callback"] }) := by
  have hfail : ∀ sp r, repl sp = some r → build_replacement is_cjs serializeOp r = none := by
    intro sp r hr
    by_cases hsp : sp = s0
    · subst hsp
      rw [hrepl0] at hr
      injection hr with hr
      subst hr
      simp [build_replacement, hmodel, build_model_call, hnoarg]
    · rw [hother sp hsp] at hr
      exact absurd hr (by simp)
  rw [runTransformer_all_fail repl is_cjs serializeOp p m hfail, hone]
  simp [mkDirErr, hrepl0, artifactTypeName, hmodel]

/-- Witness for claim C3: a concrete single-definition module whose only
directive is a Model directive missing its third inner argument. -/
theorem claim_C3_model_missing_arg_witness :
    runTransformer exReplModelNoArg false exSerialize "p.ts" exModuleSingle =
      (exModuleSingle,
        { needs_runtime := true, runtime_calls := [],
          errors := [PluginError.missing_builder_arg "p.ts" "model" "builder callback"] }) :=
  claim_C3_model_missing_arg exReplModelNoArg false exSerialize "p.ts" exModuleSingle
    1 exDirectiveModelNoArg ⟨"User"⟩ rfl
    (by
      intro sp hsp
      simp [exReplModelNoArg, hsp])
    rfl rfl rfl

/-! ## Claim C2: scope-path disambiguation

The collector mutates its shared counter table in exactly two places:
register_definition (keyed by the joined base path) and
get_anonymous_name (keyed by the anonymous scope kind). Any collector
run therefore performs some interleaved sequence of these two
operations; the sequence model below quantifies over all of them.
-/

/-- One counter-table operation of the collector. -/
inductive CounterOp where
  | register (base : String)
  | anon (kind : String)

/-- Collector state with the given counters whose joined scope path is
the given single segment (used to drive register_definition). -/
def mkRegState (counters : List (String × Nat)) (segs : List String) : CollectorState :=
  { export_bindings := [], scope_stack := segs, metadata := [], anonymous_counters := counters }

/-- Counter-table effect of one operation. -/
def opStep (counters : List (String × Nat)) : CounterOp → List (String × Nat)
  | .register base => (register_definition (mkRegState counters [base])).2.anonymous_counters
  | .anon kind => (get_anonymous_name (mkRegState counters []) kind).2.anonymous_counters

/-- Path assigned by one operation (registrations only). -/
def opOut (counters : List (String × Nat)) : CounterOp → Option String
  | .register base => some (register_definition (mkRegState counters [base])).1
  | .anon _ => none

/-- Paths assigned along a sequence of counter operations. -/
def runOps (counters : List (String × Nat)) : List CounterOp → List (Option String)
  | [] => []
  | op :: tl => opOut counters op :: runOps (opStep counters op) tl

/-- Current counter value for a base, as the entry API reads it. -/
def counterOf (counters : List (String × Nat)) (b : String) : Nat :=
  (alistGet counters b).getD 0

/-- The path register_definition assigns for base b at counter value n. -/
def pathFor (b : String) (n : Nat) : String :=
  if n = 0 then b else b ++ "$" ++ natToDecimal n

theorem get_ast_path_single (c : List (String × Nat)) (b : String) :
    get_ast_path (mkRegState c [b]) = b := by
  show String.intercalate "." [b] = b
  rfl

theorem register_definition_single (c : List (String × Nat)) (b : String) :
    register_definition (mkRegState c [b]) =
      (pathFor b (counterOf c b),
        { mkRegState c [b] with
            anonymous_counters := alistInsert c b (counterOf c b + 1) }) := by
  simp only [register_definition]
  rw [get_ast_path_single]
  simp [mkRegState, pathFor, counterOf]

theorem pathFor_injective (b : String) (m n : Nat) (h : pathFor b m = pathFor b n) : m = n := by
  unfold pathFor at h
  by_cases hm : m = 0 <;> by_cases hn : n = 0
  · omega
  · exfalso
    rw [if_pos hm, if_neg hn] at h
    have hd := congrArg String.data h
    rw [strData_append, strData_append] at hd
    have hlen := congrArg List.length hd
    simp only [List.length_append] at hlen
    have := natToDecimal_data_ne_nil n
    have : 0 < (natToDecimal n).data.length := List.length_pos.mpr this
    simp at hlen
    omega
  · exfalso
    rw [if_neg hm, if_pos hn] at h
    have hd := congrArg String.data h
    rw [strData_append, strData_append] at hd
    have hlen := congrArg List.length hd
    simp only [List.length_append] at hlen
    have := natToDecimal_data_ne_nil m
    have : 0 < (natToDecimal m).data.length := List.length_pos.mpr this
    simp at hlen
    omega
  · rw [if_neg hm, if_neg hn] at h
    have hd := congrArg String.data h
    rw [strData_append, strData_append, strData_append, strData_append] at hd
    rw [List.append_assoc, List.append_assoc] at hd
    have hsuffix := List.append_cancel_left hd
    have hsuffix2 := List.append_cancel_left hsuffix
    have hstr : natToDecimal m = natToDecimal n := by
      rw [← string_mk_data (natToDecimal m), ← string_mk_data (natToDecimal n), hsuffix2]
    exact natToDecimal_injective hstr

theorem counterOf_opStep_le (c : List (String × Nat)) (op : CounterOp) (b : String) :
    counterOf c b ≤ counterOf (opStep c op) b := by
  cases op with
  | register base =>
    by_cases hb : base = b
    · subst hb
      simp [opStep, register_definition_single, counterOf, alistGet_insert_self]
    · simp [opStep, register_definition_single, counterOf, alistGet_insert_ne _ _ _ _ hb]
  | anon kind =>
    by_cases hb : kind = b
    · subst hb
      simp [opStep, get_anonymous_name, mkRegState, counterOf, alistGet_insert_self]
    · simp [opStep, get_anonymous_name, mkRegState, counterOf, alistGet_insert_ne _ _ _ _ hb]

theorem counterOf_register_bump (c : List (String × Nat)) (b : String) :
    counterOf (opStep c (.register b)) b = counterOf c b + 1 := by
  simp [opStep, register_definition_single, counterOf, alistGet_insert_self]

theorem counterOf_foldl_le (ops : List CounterOp) (c : List (String × Nat)) (b : String) :
    counterOf c b ≤ counterOf (ops.foldl opStep c) b := by
  induction ops generalizing c with
  | nil => exact le_refl _
  | cons op tl ih =>
    calc counterOf c b ≤ counterOf (opStep c op) b := counterOf_opStep_le c op b
      _ ≤ counterOf (tl.foldl opStep (opStep c op)) b := ih (opStep c op)
      _ = counterOf ((op :: tl).foldl opStep c) b := by rw [List.foldl_cons]

theorem runOps_append (c : List (String × Nat)) (xs ys : List CounterOp) :
    runOps c (xs ++ ys) = runOps c xs ++ runOps (xs.foldl opStep c) ys := by
  induction xs generalizing c with
  | nil => rfl
  | cons op tl ih => simp [runOps, ih, List.foldl_cons]

theorem length_runOps (c : List (String × Nat)) (ops : List CounterOp) :
    (runOps c ops).length = ops.length := by
  induction ops generalizing c with
  | nil => rfl
  | cons op tl ih => simp [runOps, ih]

theorem get?_append_at_length {α} (A B : List α) (n : Nat) (h : A.length = n) :
    (A ++ B).get? n = B.get? 0 := by
  subst h
  induction A with
  | nil => rfl
  | cons hd tl ih => simpa using ih

/-- Claim C2, counterexample: two distinct registered call sites of the
same module receive the same final ScopePath. The second occurrence of
base path a is disambiguated to a-dollar-1, which collides with the
first occurrence of the literal source-level base path a-dollar-1
(a legal JavaScript identifier). -/
theorem claim_C2_counterexample :
    alistGet (MetadataCollector.collect exModuleDupNames "x.ts") 2 =
      some { ast_path := "a$1", is_top_level := true, is_exported := false,
             export_binding := none } ∧
    alistGet (MetadataCollector.collect exModuleDupNames "x.ts") 3 =
      some { ast_path := "a$1", is_top_level := true, is_exported := false,
             export_binding := none } ∧
    (2 : Nat) ≠ 3 := by
  refine ⟨rfl, rfl, by decide⟩

/-- Claim C2 (amended): along any sequence of collector counter
operations (registrations and anonymous-name draws, which share one
counter table), two distinct registrations of the same base path always
receive distinct final paths: the counter for that base strictly
increases at each of its registrations and never decreases in between,
and the dollar-suffix encoding is injective in the counter value.
Distinct call sites with different base paths may still collide, as the
counterexample shows, and a base equal to an anonymous-kind key may skip
the unsuffixed form; the amended uniqueness is per base path. -/
theorem claim_C2_same_base_distinct (counters : List (String × Nat))
    (pre mid post : List CounterOp) (b : String) (p1 p2 : String)
    (h1 : (runOps counters (pre ++ .register b :: (mid ++ .register b :: post))).get?
      pre.length = some (some p1))
    (h2 : (runOps counters (pre ++ .register b :: (mid ++ .register b :: post))).get?
      (pre.length + 1 + mid.length) = some (some p2)) :
    p1 ≠ p2 := by
  have hsplit1 : runOps counters (pre ++ .register b :: (mid ++ .register b :: post)) =
      runOps counters pre ++
        runOps (pre.foldl opStep counters) (.register b :: (mid ++ .register b :: post)) :=
    runOps_append counters pre _
  have hp1 : p1 = pathFor b (counterOf (pre.foldl opStep counters) b) := by
    rw [hsplit1, get?_append_at_length _ _ _ (length_runOps counters pre)] at h1
    simp only [runOps, opOut, register_definition_single, List.get?_cons_zero,
      Option.some.injEq] at h1
    exact h1.symm
  have hassoc : pre ++ CounterOp.register b :: (mid ++ .register b :: post) =
      (pre ++ CounterOp.register b :: mid) ++ (CounterOp.register b :: post) := by
    simp
  have hlen2 : ((runOps counters (pre ++ CounterOp.register b :: mid))).length =
      pre.length + 1 + mid.length := by
    rw [length_runOps]
    simp
    omega
  have hp2 : p2 = pathFor b
      (counterOf ((pre ++ CounterOp.register b :: mid).foldl opStep counters) b) := by
    rw [hassoc, runOps_append, get?_append_at_length _ _ _ hlen2] at h2
    simp only [runOps, opOut, register_definition_single, List.get?_cons_zero,
      Option.some.injEq] at h2
    exact h2.symm
  have hcount : counterOf (pre.foldl opStep counters) b <
      counterOf ((pre ++ CounterOp.register b :: mid).foldl opStep counters) b := by
    rw [List.foldl_append, List.foldl_cons]
    calc counterOf (pre.foldl opStep counters) b
        < counterOf (opStep (pre.foldl opStep counters) (.register b)) b := by
          rw [counterOf_register_bump]; omega
      _ ≤ counterOf (mid.foldl opStep (opStep (pre.foldl opStep counters) (.register b))) b :=
          counterOf_foldl_le mid _ b
  rw [hp1, hp2]
  intro heq
  have := pathFor_injective b _ _ heq
  omega

/-- Witness for claim C2: base a registered twice around one anonymous
arrow draw yields the distinct paths a and a-dollar-1. -/
theorem claim_C2_same_base_distinct_witness : ("a" : String) ≠ "a$1" :=
  claim_C2_same_base_distinct [] [] [.anon "arrow"] [] "a" "a" "a$1" rfl rfl

/-! ## Claim C6: shape-matched calls and collector metadata -/

theorem metadata_enter_scope (st : CollectorState) (s : String) :
    (enter_scope st s).metadata = st.metadata := rfl

theorem metadata_exit_scope (st : CollectorState) :
    (exit_scope st).metadata = st.metadata := rfl

theorem metadata_get_anonymous_name (st : CollectorState) (k : String) :
    ((get_anonymous_name st k).2).metadata = st.metadata := rfl

theorem metadata_register_definition (st : CollectorState) :
    ((register_definition st).2).metadata = st.metadata := rfl

mutual
theorem coll_mono_E : ∀ (e : JExpr) (st : CollectorState) (sp : Nat),
    (alistGet st.metadata sp).isSome = true →
    (alistGet (collectExpr st e).metadata sp).isSome = true
  | .ident _ => by intro st sp h; exact h
  | .strLit _ => by intro st sp h; exact h
  | .member obj prop => by
    intro st sp h
    exact coll_mono_MP prop _ sp (coll_mono_E obj st sp h)
  | .call sp' callee args => by
    intro st sp h
    by_cases hdef : is_gql_definition_call (.call sp' callee args)
    · rcases hreg : register_definition st with ⟨path, st1⟩
      have hmeta : st1.metadata = st.metadata := by
        have : st1 = (register_definition st).2 := by rw [hreg]
        rw [this, metadata_register_definition]
      simp only [collectExpr, hdef, if_true, hreg]
      rw [hmeta]
      exact alistGet_insert_isSome _ _ _ _ h
    · simp only [collectExpr, hdef, Bool.false_eq_true, if_false]
      exact coll_mono_Args args _ sp (coll_mono_E callee st sp h)
  | .arrow sp' body => by
    intro st sp h
    simp only [collectExpr]
    rcases hanon : get_anonymous_name st "arrow" with ⟨name, st1⟩
    have hmeta : st1.metadata = st.metadata := by
      have he : st1 = (get_anonymous_name st "arrow").2 := by rw [hanon]
      rw [he, metadata_get_anonymous_name]
    simp only [hanon, metadata_exit_scope]
    apply coll_mono_Body body
    rw [metadata_enter_scope, hmeta]
    exact h
  | .fnExpr name body => by
    intro st sp h
    simp only [collectExpr]
    rcases hname : (match name with
      | some n => (n, st)
      | none => get_anonymous_name st "function") with ⟨nm, st1⟩
    have hmeta : st1.metadata = st.metadata := by
      cases name with
      | some n => simp at hname; rw [← hname.2]
      | none =>
        simp at hname
        have he : st1 = (get_anonymous_name st "function").2 := by rw [hname]
        rw [he, metadata_get_anonymous_name]
    simp only [hname, metadata_exit_scope]
    apply coll_mono_Stmts body
    rw [metadata_enter_scope, hmeta]
    exact h
  | .objectLit props => by
    intro st sp h
    exact coll_mono_Props props st sp h
  | .otherExpr => by intro st sp h; exact h
theorem coll_mono_MP : ∀ (x : MProp) (st : CollectorState) (sp : Nat),
    (alistGet st.metadata sp).isSome = true →
    (alistGet (collectMProp st x).metadata sp).isSome = true
  | .ident _ => by intro st sp h; exact h
  | .computed e => by intro st sp h; exact coll_mono_E e st sp h
  | .otherProp => by intro st sp h; exact h
theorem coll_mono_Args : ∀ (x : JArgs) (st : CollectorState) (sp : Nat),
    (alistGet st.metadata sp).isSome = true →
    (alistGet (collectArgs st x).metadata sp).isSome = true
  | .nil => by intro st sp h; exact h
  | .cons _ e tl => by
    intro st sp h
    exact coll_mono_Args tl _ sp (coll_mono_E e st sp h)
theorem coll_mono_Body : ∀ (x : JArrowBody) (st : CollectorState) (sp : Nat),
    (alistGet st.metadata sp).isSome = true →
    (alistGet (collectArrowBody st x).metadata sp).isSome = true
  | .expr e => by intro st sp h; exact coll_mono_E e st sp h
  | .block stmts => by intro st sp h; exact coll_mono_Stmts stmts st sp h
theorem coll_mono_Props : ∀ (x : JProps) (st : CollectorState) (sp : Nat),
    (alistGet st.metadata sp).isSome = true →
    (alistGet (collectProps st x).metadata sp).isSome = true
  | .nil => by intro st sp h; exact h
  | .cons p tl => by
    intro st sp h
    exact coll_mono_Props tl _ sp (coll_mono_Prop p st sp h)
theorem coll_mono_Prop : ∀ (x : JProp) (st : CollectorState) (sp : Nat),
    (alistGet st.metadata sp).isSome = true →
    (alistGet (collectProp st x).metadata sp).isSome = true
  | .keyValue key value => by
    intro st sp h
    cases key with
    | ident s =>
      simp only [collectProp, metadata_exit_scope]
      apply coll_mono_E value
      rw [metadata_enter_scope]
      exact h
    | str s =>
      simp only [collectProp, metadata_exit_scope]
      apply coll_mono_E value
      rw [metadata_enter_scope]
      exact h
    | computed e =>
      simp only [collectProp]
      exact coll_mono_E value _ sp (coll_mono_E e st sp h)
    | otherName =>
      simp only [collectProp]
      exact coll_mono_E value st sp h
  | .otherProp => by intro st sp h; exact h
theorem coll_mono_Stmts : ∀ (x : JStmts) (st : CollectorState) (sp : Nat),
    (alistGet st.metadata sp).isSome = true →
    (alistGet (collectStmts st x).metadata sp).isSome = true
  | .nil => by intro st sp h; exact h
  | .cons s tl => by
    intro st sp h
    exact coll_mono_Stmts tl _ sp (coll_mono_Stmt s st sp h)
theorem coll_mono_Stmt : ∀ (x : JStmt) (st : CollectorState) (sp : Nat),
    (alistGet st.metadata sp).isSome = true →
    (alistGet (collectStmt st x).metadata sp).isSome = true
  | .varDecl decls => by intro st sp h; exact coll_mono_Decls decls st sp h
  | .fnDecl name body => by
    intro st sp h
    simp only [collectStmt, metadata_exit_scope]
    apply coll_mono_Stmts body
    rw [metadata_enter_scope]
    exact h
  | .exprStmt e => by intro st sp h; exact coll_mono_E e st sp h
  | .retStmt arg => by intro st sp h; exact coll_mono_E arg st sp h
  | .retNone => by intro st sp h; exact h
  | .otherStmt => by intro st sp h; exact h
theorem coll_mono_Decls : ∀ (x : JDeclarators) (st : CollectorState) (sp : Nat),
    (alistGet st.metadata sp).isSome = true →
    (alistGet (collectDecls st x).metadata sp).isSome = true
  | .nil => by intro st sp h; exact h
  | .cons d tl => by
    intro st sp h
    exact coll_mono_Decls tl _ sp (coll_mono_Decl d st sp h)
theorem coll_mono_Decl : ∀ (x : JDeclarator) (st : CollectorState) (sp : Nat),
    (alistGet st.metadata sp).isSome = true →
    (alistGet (collectDeclarator st x).metadata sp).isSome = true
  | .identInit name init => by
    intro st sp h
    simp only [collectDeclarator, metadata_exit_scope]
    apply coll_mono_E init
    rw [metadata_enter_scope]
    exact h
  | .identNoInit name => by intro st sp h; exact h
  | .otherInit init => by intro st sp h; exact coll_mono_E init st sp h
  | .otherNoInit => by intro st sp h; exact h
end

mutual
theorem me_E : ∀ e : JExpr, hasDefCallE e = false → allMatchedDefE e = true →
    matchedSpansE e = []
  | .ident _ => by intro _ _; rfl
  | .strLit _ => by intro _ _; rfl
  | .member obj prop => by
    intro hd ha
    simp only [hasDefCallE, Bool.or_eq_false_iff] at hd
    simp only [allMatchedDefE, Bool.and_eq_true] at ha
    simp [matchedSpansE, me_E obj hd.1 ha.1, me_MP prop hd.2 ha.2]
  | .call sp callee args => by
    intro hd ha
    simp only [hasDefCallE, Bool.or_eq_false_iff] at hd
    obtain ⟨⟨hdef, hc⟩, har⟩ := hd
    simp only [allMatchedDefE, Bool.and_eq_true] at ha
    obtain ⟨⟨hm, hac⟩, haa⟩ := ha
    rw [hdef] at hm
    simp only [Bool.or_false] at hm
    have hnm : (find_gql_builder_call (.call sp callee args)).isSome = false := by
      cases hfind : (find_gql_builder_call (.call sp callee args)).isSome with
      | false => rfl
      | true => rw [hfind] at hm; simp at hm
    simp [matchedSpansE, hnm, me_E callee hc hac, me_Args args har haa]
  | .arrow sp body => by
    intro hd ha
    simp only [hasDefCallE] at hd
    simp only [allMatchedDefE] at ha
    simp [matchedSpansE, me_Body body hd ha]
  | .fnExpr name body => by
    intro hd ha
    simp only [hasDefCallE] at hd
    simp only [allMatchedDefE] at ha
    simp [matchedSpansE, me_Stmts body hd ha]
  | .objectLit props => by
    intro hd ha
    simp only [hasDefCallE] at hd
    simp only [allMatchedDefE] at ha
    simp [matchedSpansE, me_Props props hd ha]
  | .otherExpr => by intro _ _; rfl
theorem me_MP : ∀ x : MProp, hasDefCallMProp x = false → allMatchedDefMProp x = true →
    matchedSpansMProp x = []
  | .ident _ => by intro _ _; rfl
  | .computed e => by
    intro hd ha
    simp only [hasDefCallMProp] at hd
    simp only [allMatchedDefMProp] at ha
    simp [matchedSpansMProp, me_E e hd ha]
  | .otherProp => by intro _ _; rfl
theorem me_Args : ∀ x : JArgs, hasDefCallArgs x = false → allMatchedDefArgs x = true →
    matchedSpansArgs x = []
  | .nil => by intro _ _; rfl
  | .cons _ e tl => by
    intro hd ha
    simp only [hasDefCallArgs, Bool.or_eq_false_iff] at hd
    simp only [allMatchedDefArgs, Bool.and_eq_true] at ha
    simp [matchedSpansArgs, me_E e hd.1 ha.1, me_Args tl hd.2 ha.2]
theorem me_Body : ∀ x : JArrowBody, hasDefCallBody x = false → allMatchedDefBody x = true →
    matchedSpansBody x = []
  | .expr e => by
    intro hd ha
    exact me_E e hd ha
  | .block stmts => by
    intro hd ha
    exact me_Stmts stmts hd ha
theorem me_Props : ∀ x : JProps, hasDefCallProps x = false → allMatchedDefProps x = true →
    matchedSpansProps x = []
  | .nil => by intro _ _; rfl
  | .cons p tl => by
    intro hd ha
    simp only [hasDefCallProps, Bool.or_eq_false_iff] at hd
    simp only [allMatchedDefProps, Bool.and_eq_true] at ha
    simp [matchedSpansProps, me_Prop p hd.1 ha.1, me_Props tl hd.2 ha.2]
theorem me_Prop : ∀ x : JProp, hasDefCallProp x = false → allMatchedDefProp x = true →
    matchedSpansProp x = []
  | .keyValue key value => by
    intro hd ha
    simp only [hasDefCallProp, Bool.or_eq_false_iff] at hd
    simp only [allMatchedDefProp, Bool.and_eq_true] at ha
    simp [matchedSpansProp, me_PN key hd.1 ha.1, me_E value hd.2 ha.2]
  | .otherProp => by intro _ _; rfl
theorem me_PN : ∀ x : PName, hasDefCallPName x = false → allMatchedDefPName x = true →
    matchedSpansPName x = []
  | .ident _ => by intro _ _; rfl
  | .str _ => by intro _ _; rfl
  | .computed e => by
    intro hd ha
    exact me_E e hd ha
  | .otherName => by intro _ _; rfl
theorem me_Stmts : ∀ x : JStmts, hasDefCallStmts x = false → allMatchedDefStmts x = true →
    matchedSpansStmts x = []
  | .nil => by intro _ _; rfl
  | .cons s tl => by
    intro hd ha
    simp only [hasDefCallStmts, Bool.or_eq_false_iff] at hd
    simp only [allMatchedDefStmts, Bool.and_eq_true] at ha
    simp [matchedSpansStmts, me_Stmt s hd.1 ha.1, me_Stmts tl hd.2 ha.2]
theorem me_Stmt : ∀ x : JStmt, hasDefCallStmt x = false → allMatchedDefStmt x = true →
    matchedSpansStmt x = []
  | .varDecl decls => by
    intro hd ha
    exact me_Decls decls hd ha
  | .fnDecl name body => by
    intro hd ha
    exact me_Stmts body hd ha
  | .exprStmt e => by
    intro hd ha
    exact me_E e hd ha
  | .retStmt arg => by
    intro hd ha
    exact me_E arg hd ha
  | .retNone => by intro _ _; rfl
  | .otherStmt => by intro _ _; rfl
theorem me_Decls : ∀ x : JDeclarators, hasDefCallDecls x = false → allMatchedDefDecls x = true →
    matchedSpansDecls x = []
  | .nil => by intro _ _; rfl
  | .cons d tl => by
    intro hd ha
    simp only [hasDefCallDecls, Bool.or_eq_false_iff] at hd
    simp only [allMatchedDefDecls, Bool.and_eq_true] at ha
    simp [matchedSpansDecls, me_Decl d hd.1 ha.1, me_Decls tl hd.2 ha.2]
theorem me_Decl : ∀ x : JDeclarator, hasDefCallDecl x = false → allMatchedDefDecl x = true →
    matchedSpansDecl x = []
  | .identInit name init => by
    intro hd ha
    exact me_E init hd ha
  | .identNoInit _ => by intro _ _; rfl
  | .otherInit init => by
    intro hd ha
    exact me_E init hd ha
  | .otherNoInit => by intro _ _; rfl
end

mutual
theorem mm_E : ∀ e : JExpr, noNestedDefE e = true → allMatchedDefE e = true →
    ∀ (st : CollectorState) (sp : Nat), sp ∈ matchedSpansE e →
    (alistGet (collectExpr st e).metadata sp).isSome = true
  | .ident _ => by intro _ _ st sp hm; simp [matchedSpansE] at hm
  | .strLit _ => by intro _ _ st sp hm; simp [matchedSpansE] at hm
  | .member obj prop => by
    intro hn ha st sp hm
    simp only [noNestedDefE, Bool.and_eq_true] at hn
    simp only [allMatchedDefE, Bool.and_eq_true] at ha
    simp only [matchedSpansE, List.mem_append] at hm
    rcases hm with hm | hm
    · exact coll_mono_MP prop _ sp (mm_E obj hn.1 ha.1 st sp hm)
    · exact mm_MP prop hn.2 ha.2 _ sp hm
  | .call sp' callee args => by
    intro hn ha st sp hm
    simp only [allMatchedDefE, Bool.and_eq_true] at ha
    obtain ⟨⟨hamc, hac⟩, haa⟩ := ha
    by_cases hdef : is_gql_definition_call (.call sp' callee args)
    · simp only [noNestedDefE, hdef, if_true, Bool.and_eq_true, Bool.not_eq_true'] at hn
      have hce : matchedSpansE callee = [] := me_E callee hn.1 hac
      have hae : matchedSpansArgs args = [] := me_Args args hn.2 haa
      simp only [matchedSpansE, hce, hae, List.append_nil] at hm
      have hsp : sp = sp' := by
        by_cases hf : (find_gql_builder_call (.call sp' callee args)).isSome
        · simp [hf] at hm; exact hm
        · simp [hf] at hm
      subst hsp
      simp only [collectExpr, hdef, if_true]
      rcases hreg : register_definition st with ⟨path, st1⟩
      simp only [hreg]
      rw [alistGet_insert_self]
      rfl
    · have hdefb : is_gql_definition_call (.call sp' callee args) = false := by
        simpa using hdef
      simp only [noNestedDefE, hdefb, Bool.false_eq_true, if_false, Bool.and_eq_true] at hn
      rw [hdefb] at hamc
      simp only [Bool.or_false] at hamc
      have hnm : (find_gql_builder_call (.call sp' callee args)).isSome = false := by
        cases hfind : (find_gql_builder_call (.call sp' callee args)).isSome with
        | false => rfl
        | true => rw [hfind] at hamc; simp at hamc
      simp only [matchedSpansE, hnm, Bool.false_eq_true, if_false, List.nil_append,
        List.mem_append] at hm
      simp only [collectExpr, hdefb, Bool.false_eq_true, if_false]
      rcases hm with hm | hm
      · exact coll_mono_Args args _ sp (mm_E callee hn.1 hac st sp hm)
      · exact mm_Args args hn.2 haa _ sp hm
  | .arrow sp' body => by
    intro hn ha st sp hm
    simp only [noNestedDefE] at hn
    simp only [allMatchedDefE] at ha
    simp only [matchedSpansE] at hm
    simp only [collectExpr]
    rcases hanon : get_anonymous_name st "arrow" with ⟨name, st1⟩
    simp only [hanon, metadata_exit_scope]
    exact mm_Body body hn ha _ sp hm
  | .fnExpr name body => by
    intro hn ha st sp hm
    simp only [noNestedDefE] at hn
    simp only [allMatchedDefE] at ha
    simp only [matchedSpansE] at hm
    simp only [collectExpr]
    rcases hname : (match name with
      | some n => (n, st)
      | none => get_anonymous_name st "function") with ⟨nm, st1⟩
    simp only [hname, metadata_exit_scope]
    exact mm_Stmts body hn ha _ sp hm
  | .objectLit props => by
    intro hn ha st sp hm
    simp only [noNestedDefE] at hn
    simp only [allMatchedDefE] at ha
    simp only [matchedSpansE] at hm
    exact mm_Props props hn ha st sp hm
  | .otherExpr => by intro _ _ st sp hm; simp [matchedSpansE] at hm
theorem mm_MP : ∀ x : MProp, noNestedDefMProp x = true → allMatchedDefMProp x = true →
    ∀ (st : CollectorState) (sp : Nat), sp ∈ matchedSpansMProp x →
    (alistGet (collectMProp st x).metadata sp).isSome = true
  | .ident _ => by intro _ _ st sp hm; simp [matchedSpansMProp] at hm
  | .computed e => by
    intro hn ha st sp hm
    simp only [noNestedDefMProp] at hn
    simp only [allMatchedDefMProp] at ha
    simp only [matchedSpansMProp] at hm
    exact mm_E e hn ha st sp hm
  | .otherProp => by intro _ _ st sp hm; simp [matchedSpansMProp] at hm
theorem mm_Args : ∀ x : JArgs, noNestedDefArgs x = true → allMatchedDefArgs x = true →
    ∀ (st : CollectorState) (sp : Nat), sp ∈ matchedSpansArgs x →
    (alistGet (collectArgs st x).metadata sp).isSome = true
  | .nil => by intro _ _ st sp hm; simp [matchedSpansArgs] at hm
  | .cons spr e tl => by
    intro hn ha st sp hm
    simp only [noNestedDefArgs, Bool.and_eq_true] at hn
    simp only [allMatchedDefArgs, Bool.and_eq_true] at ha
    simp only [matchedSpansArgs, List.mem_append] at hm
    rcases hm with hm | hm
    · exact coll_mono_Args tl _ sp (mm_E e hn.1 ha.1 st sp hm)
    · exact mm_Args tl hn.2 ha.2 _ sp hm
theorem mm_Body : ∀ x : JArrowBody, noNestedDefBody x = true → allMatchedDefBody x = true →
    ∀ (st : CollectorState) (sp : Nat), sp ∈ matchedSpansBody x →
    (alistGet (collectArrowBody st x).metadata sp).isSome = true
  | .expr e => by
    intro hn ha st sp hm
    exact mm_E e hn ha st sp hm
  | .block stmts => by
    intro hn ha st sp hm
    exact mm_Stmts stmts hn ha st sp hm
theorem mm_Props : ∀ x : JProps, noNestedDefProps x = true → allMatchedDefProps x = true →
    ∀ (st : CollectorState) (sp : Nat), sp ∈ matchedSpansProps x →
    (alistGet (collectProps st x).metadata sp).isSome = true
  | .nil => by intro _ _ st sp hm; simp [matchedSpansProps] at hm
  | .cons p tl => by
    intro hn ha st sp hm
    simp only [noNestedDefProps, Bool.and_eq_true] at hn
    simp only [allMatchedDefProps, Bool.and_eq_true] at ha
    simp only [matchedSpansProps, List.mem_append] at hm
    rcases hm with hm | hm
    · exact coll_mono_Props tl _ sp (mm_Prop p hn.1 ha.1 st sp hm)
    · exact mm_Props tl hn.2 ha.2 _ sp hm
theorem mm_Prop : ∀ x : JProp, noNestedDefProp x = true → allMatchedDefProp x = true →
    ∀ (st : CollectorState) (sp : Nat), sp ∈ matchedSpansProp x →
    (alistGet (collectProp st x).metadata sp).isSome = true
  | .keyValue key value => by
    intro hn ha st sp hm
    simp only [noNestedDefProp, Bool.and_eq_true] at hn
    simp only [allMatchedDefProp, Bool.and_eq_true] at ha
    simp only [matchedSpansProp, List.mem_append] at hm
    cases key with
    | ident s =>
      rcases hm with hm | hm
      · simp [matchedSpansPName] at hm
      · simp only [collectProp, metadata_exit_scope]
        exact mm_E value hn.2 ha.2 _ sp hm
    | str s =>
      rcases hm with hm | hm
      · simp [matchedSpansPName] at hm
      · simp only [collectProp, metadata_exit_scope]
        exact mm_E value hn.2 ha.2 _ sp hm
    | computed e =>
      simp only [collectProp]
      rcases hm with hm | hm
      · simp only [matchedSpansPName] at hm
        exact coll_mono_E value _ sp
          (mm_E e (by simpa [noNestedDefPName] using hn.1)
            (by simpa [allMatchedDefPName] using ha.1) st sp hm)
      · exact mm_E value hn.2 ha.2 _ sp hm
    | otherName =>
      rcases hm with hm | hm
      · simp [matchedSpansPName] at hm
      · simp only [collectProp]
        exact mm_E value hn.2 ha.2 st sp hm
  | .otherProp => by intro _ _ st sp hm; simp [matchedSpansProp] at hm
theorem mm_Stmts : ∀ x : JStmts, noNestedDefStmts x = true → allMatchedDefStmts x = true →
    ∀ (st : CollectorState) (sp : Nat), sp ∈ matchedSpansStmts x →
    (alistGet (collectStmts st x).metadata sp).isSome = true
  | .nil => by intro _ _ st sp hm; simp [matchedSpansStmts] at hm
  | .cons s tl => by
    intro hn ha st sp hm
    simp only [noNestedDefStmts, Bool.and_eq_true] at hn
    simp only [allMatchedDefStmts, Bool.and_eq_true] at ha
    simp only [matchedSpansStmts, List.mem_append] at hm
    rcases hm with hm | hm
    · exact coll_mono_Stmts tl _ sp (mm_Stmt s hn.1 ha.1 st sp hm)
    · exact mm_Stmts tl hn.2 ha.2 _ sp hm
theorem mm_Stmt : ∀ x : JStmt, noNestedDefStmt x = true → allMatchedDefStmt x = true →
    ∀ (st : CollectorState) (sp : Nat), sp ∈ matchedSpansStmt x →
    (alistGet (collectStmt st x).metadata sp).isSome = true
  | .varDecl decls => by
    intro hn ha st sp hm
    exact mm_Decls decls hn ha st sp hm
  | .fnDecl name body => by
    intro hn ha st sp hm
    simp only [noNestedDefStmt] at hn
    simp only [allMatchedDefStmt] at ha
    simp only [matchedSpansStmt] at hm
    simp only [collectStmt, metadata_exit_scope]
    exact mm_Stmts body hn ha _ sp hm
  | .exprStmt e => by
    intro hn ha st sp hm
    exact mm_E e hn ha st sp hm
  | .retStmt arg => by
    intro hn ha st sp hm
    exact mm_E arg hn ha st sp hm
  | .retNone => by intro _ _ st sp hm; simp [matchedSpansStmt] at hm
  | .otherStmt => by intro _ _ st sp hm; simp [matchedSpansStmt] at hm
theorem mm_Decls : ∀ x : JDeclarators, noNestedDefDecls x = true → allMatchedDefDecls x = true →
    ∀ (st : CollectorState) (sp : Nat), sp ∈ matchedSpansDecls x →
    (alistGet (collectDecls st x).metadata sp).isSome = true
  | .nil => by intro _ _ st sp hm; simp [matchedSpansDecls] at hm
  | .cons d tl => by
    intro hn ha st sp hm
    simp only [noNestedDefDecls, Bool.and_eq_true] at hn
    simp only [allMatchedDefDecls, Bool.and_eq_true] at ha
    simp only [matchedSpansDecls, List.mem_append] at hm
    rcases hm with hm | hm
    · exact coll_mono_Decls tl _ sp (mm_Decl d hn.1 ha.1 st sp hm)
    · exact mm_Decls tl hn.2 ha.2 _ sp hm
theorem mm_Decl : ∀ x : JDeclarator, noNestedDefDecl x = true → allMatchedDefDecl x = true →
    ∀ (st : CollectorState) (sp : Nat), sp ∈ matchedSpansDecl x →
    (alistGet (collectDeclarator st x).metadata sp).isSome = true
  | .identInit name init => by
    intro hn ha st sp hm
    simp only [noNestedDefDecl] at hn
    simp only [allMatchedDefDecl] at ha
    simp only [matchedSpansDecl] at hm
    simp only [collectDeclarator, metadata_exit_scope]
    exact mm_E init hn ha _ sp hm
  | .identNoInit _ => by intro _ _ st sp hm; simp [matchedSpansDecl] at hm
  | .otherInit init => by
    intro hn ha st sp hm
    exact mm_E init hn ha st sp hm
  | .otherNoInit => by intro _ _ st sp hm; simp [matchedSpansDecl] at hm
end

/-- Code string of the MetadataNotFound diagnostic. -/
def META_NOT_FOUND_CODE : String := "SODA_GQL_METADATA_NOT_FOUND"

theorem process_call_no_meta_err (a : BuilderArtifact) (md : MetadataMap) (p : String)
    (st : FinderState) (sp : Nat) (callee : JExpr) (args : JArgs)
    (hsp : (find_gql_builder_call (.call sp callee args)).isSome = true →
      (alistGet md sp).isSome = true)
    (hst : ∀ er ∈ st.errors, er.code ≠ META_NOT_FOUND_CODE) :
    ∀ er ∈ (process_call a md p st sp callee args).errors, er.code ≠ META_NOT_FOUND_CODE := by
  cases hf : find_gql_builder_call (.call sp callee args) with
  | none =>
    simp only [process_call, hf]
    exact hst
  | some b =>
    have hmd : (alistGet md sp).isSome = true := hsp (by rw [hf]; rfl)
    cases hmg : alistGet md sp with
    | none => rw [hmg] at hmd; simp at hmd
    | some meta =>
      cases ha : a (resolve_canonical_id p meta.ast_path) with
      | none =>
        simp only [process_call, hf, hmg, ha]
        intro er hmem
        simp only [List.mem_append, List.mem_singleton] at hmem
        rcases hmem with hmem | hmem
        · exact hst er hmem
        · subst hmem
          simp [PluginError.artifact_not_found, META_NOT_FOUND_CODE]
      | some art =>
        simp only [process_call, hf, hmg, ha]
        exact hst

mutual
theorem fe_E (a : BuilderArtifact) (md : MetadataMap) (p : String) :
    ∀ e : JExpr, (∀ sp ∈ matchedSpansE e, (alistGet md sp).isSome = true) →
    ∀ st : FinderState, (∀ er ∈ st.errors, er.code ≠ META_NOT_FOUND_CODE) →
    ∀ er ∈ (finderExpr a md p st e).errors, er.code ≠ META_NOT_FOUND_CODE
  | .ident _ => by intro _ st hst; exact hst
  | .strLit _ => by intro _ st hst; exact hst
  | .member obj prop => by
    intro hsp st hst
    simp only [matchedSpansE] at hsp
    refine fe_MP a md p prop (fun sp h => hsp sp ?_) _
      (fe_E a md p obj (fun sp h => hsp sp ?_) st hst)
    · exact List.mem_append.mpr (Or.inr h)
    · exact List.mem_append.mpr (Or.inl h)
  | .call sp' callee args => by
    intro hsp st hst
    simp only [matchedSpansE] at hsp
    have hst1 := process_call_no_meta_err a md p st sp' callee args
      (fun hf => hsp sp' (by simp [hf])) hst
    refine fe_Args a md p args (fun sp h => hsp sp ?_) _
      (fe_E a md p callee (fun sp h => hsp sp ?_) _ hst1)
    · exact List.mem_append.mpr (Or.inr h)
    · exact List.mem_append.mpr (Or.inl (List.mem_append.mpr (Or.inr h)))
  | .arrow sp' body => by
    intro hsp st hst
    exact fe_Body a md p body hsp st hst
  | .fnExpr name body => by
    intro hsp st hst
    exact fe_Stmts a md p body hsp st hst
  | .objectLit props => by
    intro hsp st hst
    exact fe_Props a md p props hsp st hst
  | .otherExpr => by intro _ st hst; exact hst
theorem fe_MP (a : BuilderArtifact) (md : MetadataMap) (p : String) :
    ∀ x : MProp, (∀ sp ∈ matchedSpansMProp x, (alistGet md sp).isSome = true) →
    ∀ st : FinderState, (∀ er ∈ st.errors, er.code ≠ META_NOT_FOUND_CODE) →
    ∀ er ∈ (finderMProp a md p st x).errors, er.code ≠ META_NOT_FOUND_CODE
  | .ident _ => by intro _ st hst; exact hst
  | .computed e => by intro hsp st hst; exact fe_E a md p e hsp st hst
  | .otherProp => by intro _ st hst; exact hst
theorem fe_Args (a : BuilderArtifact) (md : MetadataMap) (p : String) :
    ∀ x : JArgs, (∀ sp ∈ matchedSpansArgs x, (alistGet md sp).isSome = true) →
    ∀ st : FinderState, (∀ er ∈ st.errors, er.code ≠ META_NOT_FOUND_CODE) →
    ∀ er ∈ (finderArgs a md p st x).errors, er.code ≠ META_NOT_FOUND_CODE
  | .nil => by intro _ st hst; exact hst
  | .cons spr e tl => by
    intro hsp st hst
    simp only [matchedSpansArgs] at hsp
    refine fe_Args a md p tl (fun sp h => hsp sp ?_) _
      (fe_E a md p e (fun sp h => hsp sp ?_) st hst)
    · exact List.mem_append.mpr (Or.inr h)
    · exact List.mem_append.mpr (Or.inl h)
theorem fe_Body (a : BuilderArtifact) (md : MetadataMap) (p : String) :
    ∀ x : JArrowBody, (∀ sp ∈ matchedSpansBody x, (alistGet md sp).isSome = true) →
    ∀ st : FinderState, (∀ er ∈ st.errors, er.code ≠ META_NOT_FOUND_CODE) →
    ∀ er ∈ (finderArrowBody a md p st x).errors, er.code ≠ META_NOT_FOUND_CODE
  | .expr e => by intro hsp st hst; exact fe_E a md p e hsp st hst
  | .block stmts => by intro hsp st hst; exact fe_Stmts a md p stmts hsp st hst
theorem fe_Props (a : BuilderArtifact) (md : MetadataMap) (p : String) :
    ∀ x : JProps, (∀ sp ∈ matchedSpansProps x, (alistGet md sp).isSome = true) →
    ∀ st : FinderState, (∀ er ∈ st.errors, er.code ≠ META_NOT_FOUND_CODE) →
    ∀ er ∈ (finderProps a md p st x).errors, er.code ≠ META_NOT_FOUND_CODE
  | .nil => by intro _ st hst; exact hst
  | .cons pr tl => by
    intro hsp st hst
    simp only [matchedSpansProps] at hsp
    refine fe_Props a md p tl (fun sp h => hsp sp ?_) _
      (fe_Prop a md p pr (fun sp h => hsp sp ?_) st hst)
    · exact List.mem_append.mpr (Or.inr h)
    · exact List.mem_append.mpr (Or.inl h)
theorem fe_Prop (a : BuilderArtifact) (md : MetadataMap) (p : String) :
    ∀ x : JProp, (∀ sp ∈ matchedSpansProp x, (alistGet md sp).isSome = true) →
    ∀ st : FinderState, (∀ er ∈ st.errors, er.code ≠ META_NOT_FOUND_CODE) →
    ∀ er ∈ (finderProp a md p st x).errors, er.code ≠ META_NOT_FOUND_CODE
  | .keyValue key value => by
    intro hsp st hst
    simp only [matchedSpansProp] at hsp
    refine fe_E a md p value (fun sp h => hsp sp ?_) _
      (fe_PN a md p key (fun sp h => hsp sp ?_) st hst)
    · exact List.mem_append.mpr (Or.inr h)
    · exact List.mem_append.mpr (Or.inl h)
  | .otherProp => by intro _ st hst; exact hst
theorem fe_PN (a : BuilderArtifact) (md : MetadataMap) (p : String) :
    ∀ x : PName, (∀ sp ∈ matchedSpansPName x, (alistGet md sp).isSome = true) →
    ∀ st : FinderState, (∀ er ∈ st.errors, er.code ≠ META_NOT_FOUND_CODE) →
    ∀ er ∈ (finderPName a md p st x).errors, er.code ≠ META_NOT_FOUND_CODE
  | .ident _ => by intro _ st hst; exact hst
  | .str _ => by intro _ st hst; exact hst
  | .computed e => by intro hsp st hst; exact fe_E a md p e hsp st hst
  | .otherName => by intro _ st hst; exact hst
theorem fe_Stmts (a : BuilderArtifact) (md : MetadataMap) (p : String) :
    ∀ x : JStmts, (∀ sp ∈ matchedSpansStmts x, (alistGet md sp).isSome = true) →
    ∀ st : FinderState, (∀ er ∈ st.errors, er.code ≠ META_NOT_FOUND_CODE) →
    ∀ er ∈ (finderStmts a md p st x).errors, er.code ≠ META_NOT_FOUND_CODE
  | .nil => by intro _ st hst; exact hst
  | .cons s tl => by
    intro hsp st hst
    simp only [matchedSpansStmts] at hsp
    refine fe_Stmts a md p tl (fun sp h => hsp sp ?_) _
      (fe_Stmt a md p s (fun sp h => hsp sp ?_) st hst)
    · exact List.mem_append.mpr (Or.inr h)
    · exact List.mem_append.mpr (Or.inl h)
theorem fe_Stmt (a : BuilderArtifact) (md : MetadataMap) (p : String) :
    ∀ x : JStmt, (∀ sp ∈ matchedSpansStmt x, (alistGet md sp).isSome = true) →
    ∀ st : FinderState, (∀ er ∈ st.errors, er.code ≠ META_NOT_FOUND_CODE) →
    ∀ er ∈ (finderStmt a md p st x).errors, er.code ≠ META_NOT_FOUND_CODE
  | .varDecl decls => by intro hsp st hst; exact fe_Decls a md p decls hsp st hst
  | .fnDecl name body => by intro hsp st hst; exact fe_Stmts a md p body hsp st hst
  | .exprStmt e => by intro hsp st hst; exact fe_E a md p e hsp st hst
  | .retStmt arg => by intro hsp st hst; exact fe_E a md p arg hsp st hst
  | .retNone => by intro _ st hst; exact hst
  | .otherStmt => by intro _ st hst; exact hst
theorem fe_Decls (a : BuilderArtifact) (md : MetadataMap) (p : String) :
    ∀ x : JDeclarators, (∀ sp ∈ matchedSpansDecls x, (alistGet md sp).isSome = true) →
    ∀ st : FinderState, (∀ er ∈ st.errors, er.code ≠ META_NOT_FOUND_CODE) →
    ∀ er ∈ (finderDecls a md p st x).errors, er.code ≠ META_NOT_FOUND_CODE
  | .nil => by intro _ st hst; exact hst
  | .cons d tl => by
    intro hsp st hst
    simp only [matchedSpansDecls] at hsp
    refine fe_Decls a md p tl (fun sp h => hsp sp ?_) _
      (fe_Decl a md p d (fun sp h => hsp sp ?_) st hst)
    · exact List.mem_append.mpr (Or.inr h)
    · exact List.mem_append.mpr (Or.inl h)
theorem fe_Decl (a : BuilderArtifact) (md : MetadataMap) (p : String) :
    ∀ x : JDeclarator, (∀ sp ∈ matchedSpansDecl x, (alistGet md sp).isSome = true) →
    ∀ st : FinderState, (∀ er ∈ st.errors, er.code ≠ META_NOT_FOUND_CODE) →
    ∀ er ∈ (finderDeclarator a md p st x).errors, er.code ≠ META_NOT_FOUND_CODE
  | .identInit name init => by intro hsp st hst; exact fe_E a md p init hsp st hst
  | .identNoInit _ => by intro _ st hst; exact hst
  | .otherInit init => by intro hsp st hst; exact fe_E a md p init hsp st hst
  | .otherNoInit => by intro _ st hst; exact hst
end

theorem coll_mono_Item (it : ModuleItem) (st : CollectorState) (sp : Nat)
    (h : (alistGet st.metadata sp).isSome = true) :
    (alistGet (collectModuleItem st it).metadata sp).isSome = true := by
  cases it with
  | importDecl specs src => exact h
  | stmt s => exact coll_mono_Stmt s st sp h
  | otherModuleDecl => exact h

theorem coll_mono_fold (body : List ModuleItem) :
    ∀ (st : CollectorState) (sp : Nat), (alistGet st.metadata sp).isSome = true →
    (alistGet (body.foldl collectModuleItem st).metadata sp).isSome = true := by
  induction body with
  | nil => intro st sp h; exact h
  | cons hd tl ih =>
    intro st sp h
    rw [List.foldl_cons]
    exact ih _ sp (coll_mono_Item hd st sp h)

theorem mm_Module_aux (body : List ModuleItem) :
    ∀ st : CollectorState,
      (body.all (fun item =>
        match item with
        | .importDecl _ _ => true
        | .stmt s => noNestedDefStmt s
        | .otherModuleDecl => true)) = true →
      (body.all (fun item =>
        match item with
        | .importDecl _ _ => true
        | .stmt s => allMatchedDefStmt s
        | .otherModuleDecl => true)) = true →
      ∀ sp ∈ body.flatMap matchedSpansItem,
        (alistGet (body.foldl collectModuleItem st).metadata sp).isSome = true := by
  induction body with
  | nil => intro st _ _ sp hm; simp at hm
  | cons hd tl ih =>
    intro st hn ha sp hm
    simp only [List.all_cons, Bool.and_eq_true] at hn ha
    simp only [List.flatMap_cons, List.mem_append] at hm
    rw [List.foldl_cons]
    rcases hm with hm | hm
    · apply coll_mono_fold tl
      cases hd with
      | importDecl specs src => simp [matchedSpansItem] at hm
      | stmt s => exact mm_Stmt s hn.1 ha.1 st sp hm
      | otherModuleDecl => simp [matchedSpansItem] at hm
    · exact ih _ hn.2 ha.2 sp hm

theorem fe_Item (a : BuilderArtifact) (md : MetadataMap) (p : String) (it : ModuleItem)
    (hsp : ∀ sp ∈ matchedSpansItem it, (alistGet md sp).isSome = true)
    (st : FinderState) (hst : ∀ er ∈ st.errors, er.code ≠ META_NOT_FOUND_CODE) :
    ∀ er ∈ (finderModuleItem a md p st it).errors, er.code ≠ META_NOT_FOUND_CODE := by
  cases it with
  | importDecl specs src => exact hst
  | stmt s => exact fe_Stmt a md p s hsp st hst
  | otherModuleDecl => exact hst

theorem fe_fold (a : BuilderArtifact) (md : MetadataMap) (p : String)
    (body : List ModuleItem) :
    ∀ st : FinderState,
      (∀ sp ∈ body.flatMap matchedSpansItem, (alistGet md sp).isSome = true) →
      (∀ er ∈ st.errors, er.code ≠ META_NOT_FOUND_CODE) →
      ∀ er ∈ (body.foldl (finderModuleItem a md p) st).errors,
        er.code ≠ META_NOT_FOUND_CODE := by
  induction body with
  | nil => intro st _ hst; exact hst
  | cons hd tl ih =>
    intro st hsp hst
    simp only [List.flatMap_cons, List.mem_append] at hsp
    rw [List.foldl_cons]
    refine ih _ (fun sp h => hsp sp (Or.inr h)) ?_
    exact fe_Item a md p hd (fun sp h => hsp sp (Or.inl h)) st hst

/-- Claim C6, counterexample: the claim fails in two ways. A top-level
builder call whose sole argument is a function expression is
shape-matched by the analyzer but not registered by the collector (which
requires an arrow), so the MetadataNotFound branch fires. A builder call
nested inside another builder call's callback is shape-matched too, but
the collector skips the children of a registered call, so the nested
span has no metadata and MetadataNotFound fires again. -/
theorem claim_C6_counterexample :
    (matchedSpansModule exModuleFnArg = [5] ∧
      alistGet (MetadataCollector.collect exModuleFnArg "p.ts") 5 = none ∧
      (runFinder exArtifact (MetadataCollector.collect exModuleFnArg "p.ts") "p.ts"
        exModuleFnArg).errors = [PluginError.metadata_not_found "p.ts"]) ∧
    (8 ∈ matchedSpansModule exModuleNested ∧
      alistGet (MetadataCollector.collect exModuleNested "p.ts") 8 = none ∧
      ((runFinder exArtifact (MetadataCollector.collect exModuleNested "p.ts") "p.ts"
        exModuleNested).errors).map PluginError.code =
        ["SODA_GQL_ANALYSIS_ARTIFACT_NOT_FOUND", "SODA_GQL_METADATA_NOT_FOUND"]) := by
  exact ⟨⟨rfl, rfl, rfl⟩, ⟨by decide, rfl, rfl⟩⟩

/-- Claim C6 (amended): in a module where every analyzer shape-matched
call also satisfies the collector's registration predicate (its single
argument is an arrow function, not a function expression) and no
registrable builder call is nested inside another one, every
shape-matched call has a metadata entry for its span, and the finder
emits no MetadataNotFound diagnostic whatever the artifact table is.
Both restrictions are forced by the counterexample. -/
theorem claim_C6_matched_has_metadata (m : JModule) (path : String)
    (artifact : BuilderArtifact)
    (hn : noNestedDefModule m = true) (ha : allMatchedDefModule m = true) :
    (∀ sp ∈ matchedSpansModule m,
      (alistGet (MetadataCollector.collect m path) sp).isSome = true) ∧
    ∀ er ∈ (runFinder artifact (MetadataCollector.collect m path) path m).errors,
      er.code ≠ META_NOT_FOUND_CODE := by
  have hmeta : ∀ sp ∈ matchedSpansModule m,
      (alistGet (MetadataCollector.collect m path) sp).isSome = true := by
    intro sp hm
    exact mm_Module_aux m.body _ hn ha sp hm
  refine ⟨hmeta, ?_⟩
  intro er hmem
  exact fe_fold artifact (MetadataCollector.collect m path) path m.body _ hmeta
    (by intro er h; simp at h) er hmem

/-- Witness for claim C6 on the concrete single-definition module (whose
only matched call is arrow-argumented and unnested). -/
theorem claim_C6_matched_has_metadata_witness :
    (∀ sp ∈ matchedSpansModule exModuleSingle,
      (alistGet (MetadataCollector.collect exModuleSingle "p.ts") sp).isSome = true) ∧
    ∀ er ∈ (runFinder exArtifact (MetadataCollector.collect exModuleSingle "p.ts") "p.ts"
      exModuleSingle).errors, er.code ≠ META_NOT_FOUND_CODE :=
  claim_C6_matched_has_metadata exModuleSingle "p.ts" exArtifact rfl rfl
